import Mathlib

/-!
Verification development for the ARA extraction pipeline
(`services/local-ai`: `parser.ts`, `llmCategorizer.ts`, `ollama.ts`, and the
shared MCCMC v2 schema `mccmc_v2.ts`).

The TypeScript sources are shallowly embedded: pure functions become Lean
functions, the JS regular expressions used by the parsers are embedded via a
small backtracking matcher with JavaScript `String.prototype.match` semantics
(leftmost position first, alternation tried left to right, greedy/lazy
quantifiers with backtracking), untyped JSON values become an explicit `Json`
inductive, and the process-wide `llmFailed` latch of the orchestrator becomes
explicit state passing.  Numeric OCR confidences (JS `number`) are modelled as
`Rat`; all string indices count Unicode code points where JS counts UTF-16
units (the two agree on all inputs considered here).
-/

namespace ARA

/-- Confidence tier of an extracted field (`ConfidenceLevelSchema` in
`mccmc_v2.ts`): `high`, `medium` or `low`. -/
inductive ConfidenceLevel where
  | high
  | medium
  | low
deriving DecidableEq, Repr

/-- Numeric rank of a tier, used only to state ordering facts. -/
def ConfidenceLevel.rank : ConfidenceLevel → Nat
  | .low => 0
  | .medium => 1
  | .high => 2

/-- The extraction-method tag accepted by `generateConfidenceScores`
(`parser.ts`): the four automatic strategies. -/
inductive ScoreMethod where
  | ocrOnly
  | llmStructured
  | llmCategorized
  | visionLLM
deriving DecidableEq, Repr

/-- `extractionMethod` of a `ParseResult` (`parser.ts`): the four automatic
strategies plus `manual`. -/
inductive ExtractionMethod where
  | ocrOnly
  | llmStructured
  | llmCategorized
  | visionLLM
  | manual
deriving DecidableEq, Repr

/-- `FormHeader` of the MCCMC v2 schema: six free-text fields. -/
structure FormHeader where
  recipientName : String
  date : String
  time : String
  recipientIdentifier : String
  dob : String
  location : String
deriving DecidableEq, Repr

/-- `CareCoordinationType` of the MCCMC v2 schema: two checkboxes. -/
structure CareCoordinationType where
  sih : Bool
  hcbw : Bool
deriving DecidableEq, Repr

/-- `NarrativeSections` of the MCCMC v2 schema: six long-form text fields. -/
structure NarrativeSections where
  recipientAndVisitObservations : String
  healthEmotionalStatus : String
  reviewOfServices : String
  progressTowardGoals : String
  additionalNotes : String
  followUpTasks : String
deriving DecidableEq, Repr

/-- `Signature` section of the MCCMC v2 schema: three free-text fields. -/
structure SignatureSection where
  careCoordinatorName : String
  signature : String
  dateSigned : String
deriving DecidableEq, Repr

/-- `MonthlyCareCoordinationForm` (MCCMC v2): the canonical record. -/
structure MonthlyCareCoordinationForm where
  header : FormHeader
  careCoordinationType : CareCoordinationType
  narrative : NarrativeSections
  signature : SignatureSection
deriving DecidableEq, Repr

/-- `createEmptyForm` of `mccmc_v2.ts`: the all-default record (every string
empty, every checkbox false). -/
def createEmptyForm : MonthlyCareCoordinationForm :=
  { header := { recipientName := "", date := "", time := "",
                recipientIdentifier := "", dob := "", location := "" }
    careCoordinationType := { sih := false, hcbw := false }
    narrative := { recipientAndVisitObservations := "", healthEmotionalStatus := "",
                   reviewOfServices := "", progressTowardGoals := "",
                   additionalNotes := "", followUpTasks := "" }
    signature := { careCoordinatorName := "", signature := "", dateSigned := "" } }

/-- Field kind in the static metadata table (`text`, `checkbox`, `textarea`). -/
inductive FieldKind where
  | text
  | checkbox
  | textarea
deriving DecidableEq, Repr

/-- One row of the static field-metadata table `FORM_FIELDS` of `mccmc_v2.ts`. -/
structure FieldMetadata where
  path : String
  label : String
  kind : FieldKind
  required : Bool
  sectionName : String
deriving DecidableEq, Repr

/-- The static field-metadata table `FORM_FIELDS` of `mccmc_v2.ts`
(placeholders omitted): 6 header, 2 checkbox, 6 narrative, 3 signature rows. -/
def FORM_FIELDS : List FieldMetadata :=
  [ { path := "header.recipientName", label := "Recipient Name", kind := .text,
      required := true, sectionName := "Header" },
    { path := "header.date", label := "Date", kind := .text,
      required := true, sectionName := "Header" },
    { path := "header.time", label := "Time", kind := .text,
      required := false, sectionName := "Header" },
    { path := "header.recipientIdentifier", label := "Recipient Identifier", kind := .text,
      required := false, sectionName := "Header" },
    { path := "header.dob", label := "Date of Birth", kind := .text,
      required := false, sectionName := "Header" },
    { path := "header.location", label := "Location", kind := .text,
      required := false, sectionName := "Header" },
    { path := "careCoordinationType.sih", label := "SIH", kind := .checkbox,
      required := false, sectionName := "Care Coordination Type" },
    { path := "careCoordinationType.hcbw", label := "HCBW", kind := .checkbox,
      required := false, sectionName := "Care Coordination Type" },
    { path := "narrative.recipientAndVisitObservations",
      label := "Recipient & Visit Observations", kind := .textarea,
      required := false, sectionName := "Observations" },
    { path := "narrative.healthEmotionalStatus",
      label := "Health/Emotional Status, Med Changes, Doctor Visits, Behavior Changes, Critical Incidents, Falls, Hospital/Urgent Care Visits",
      kind := .textarea, required := false, sectionName := "Health" },
    { path := "narrative.reviewOfServices", label := "Review of Services", kind := .textarea,
      required := false, sectionName := "Services" },
    { path := "narrative.progressTowardGoals", label := "Progress Toward Goals", kind := .textarea,
      required := false, sectionName := "Goals" },
    { path := "narrative.additionalNotes", label := "Additional Notes", kind := .textarea,
      required := false, sectionName := "Notes" },
    { path := "narrative.followUpTasks", label := "Care Coordinator Follow Up Tasks",
      kind := .textarea, required := false, sectionName := "Follow Up" },
    { path := "signature.careCoordinatorName", label := "Care Coordinator Name", kind := .text,
      required := false, sectionName := "Signature" },
    { path := "signature.signature", label := "Signature", kind := .text,
      required := false, sectionName := "Signature" },
    { path := "signature.dateSigned", label := "Date Signed", kind := .text,
      required := false, sectionName := "Signature" } ]

/-! ### Untyped JSON values and the Zod validation model -/

/-- Untyped JavaScript/JSON values, as produced by `JSON.parse`.  Numbers are
kept as their source lexeme: no claim considered here inspects a numeric
value, only whether one is present (the schema rejects numbers wherever it
expects a string or boolean). -/
inductive Json where
  | null
  | bool (b : Bool)
  | num (raw : String)
  | str (s : String)
  | arr (elems : List Json)
  | obj (fields : List (String × Json))

/-- Property lookup on a JS object (first binding wins; objects built by the
embedded `JSON.parse` never contain duplicate keys). -/
def getField (kvs : List (String × Json)) (k : String) : Option Json :=
  (kvs.find? (fun p => p.1 == k)).map (·.2)

/-- Zod `z.string().default('')`: a missing key yields the default, a present
key must hold a string (null and other types are rejected, never coerced). -/
def zodStr (kvs : List (String × Json)) (k : String) : Option String :=
  match getField kvs k with
  | none => some ""
  | some (.str s) => some s
  | some _ => none

/-- Zod `z.boolean().default(false)`: a missing key yields `false`, a present
key must hold a boolean. -/
def zodBool (kvs : List (String × Json)) (k : String) : Option Bool :=
  match getField kvs k with
  | none => some false
  | some (.bool b) => some b
  | some _ => none

/-- `FormHeaderSchema.parse`: requires an object, reads the six header
fields with string/default semantics, strips unknown keys. -/
def validateHeader (j : Json) : Option FormHeader :=
  match j with
  | .obj kvs => do
      let recipientName ← zodStr kvs "recipientName"
      let date ← zodStr kvs "date"
      let time ← zodStr kvs "time"
      let recipientIdentifier ← zodStr kvs "recipientIdentifier"
      let dob ← zodStr kvs "dob"
      let location ← zodStr kvs "location"
      pure { recipientName, date, time, recipientIdentifier, dob, location }
  | _ => none

/-- `CareCoordinationTypeSchema.parse`. -/
def validateCareCoordinationType (j : Json) : Option CareCoordinationType :=
  match j with
  | .obj kvs => do
      let sih ← zodBool kvs "sih"
      let hcbw ← zodBool kvs "hcbw"
      pure { sih, hcbw }
  | _ => none

/-- `NarrativeSectionsSchema.parse`. -/
def validateNarrative (j : Json) : Option NarrativeSections :=
  match j with
  | .obj kvs => do
      let recipientAndVisitObservations ← zodStr kvs "recipientAndVisitObservations"
      let healthEmotionalStatus ← zodStr kvs "healthEmotionalStatus"
      let reviewOfServices ← zodStr kvs "reviewOfServices"
      let progressTowardGoals ← zodStr kvs "progressTowardGoals"
      let additionalNotes ← zodStr kvs "additionalNotes"
      let followUpTasks ← zodStr kvs "followUpTasks"
      pure { recipientAndVisitObservations, healthEmotionalStatus, reviewOfServices,
             progressTowardGoals, additionalNotes, followUpTasks }
  | _ => none

/-- `SignatureSchema.parse`. -/
def validateSignature (j : Json) : Option SignatureSection :=
  match j with
  | .obj kvs => do
      let careCoordinatorName ← zodStr kvs "careCoordinatorName"
      let signature ← zodStr kvs "signature"
      let dateSigned ← zodStr kvs "dateSigned"
      pure { careCoordinatorName, signature, dateSigned }
  | _ => none

/-- `validateForm` of `mccmc_v2.ts`: `MonthlyCareCoordinationFormSchema.parse`
on an untyped value, returning `none` where Zod would throw.  The four
sub-objects are required (they carry no defaults of their own). -/
def validateForm (j : Json) : Option MonthlyCareCoordinationForm :=
  match j with
  | .obj kvs => do
      let header ← (getField kvs "header").bind validateHeader
      let careCoordinationType ←
        (getField kvs "careCoordinationType").bind validateCareCoordinationType
      let narrative ← (getField kvs "narrative").bind validateNarrative
      let signature ← (getField kvs "signature").bind validateSignature
      pure { header, careCoordinationType, narrative, signature }
  | _ => none

/-- The JSON encoding of a well-typed form record (how a
`MonthlyCareCoordinationForm` value looks as an untyped JS object, e.g. after
`JSON.stringify`/`JSON.parse` or when handed to `validateForm`). -/
def encodeForm (f : MonthlyCareCoordinationForm) : Json :=
  .obj
    [ ("header", .obj
        [ ("recipientName", .str f.header.recipientName),
          ("date", .str f.header.date),
          ("time", .str f.header.time),
          ("recipientIdentifier", .str f.header.recipientIdentifier),
          ("dob", .str f.header.dob),
          ("location", .str f.header.location) ]),
      ("careCoordinationType", .obj
        [ ("sih", .bool f.careCoordinationType.sih),
          ("hcbw", .bool f.careCoordinationType.hcbw) ]),
      ("narrative", .obj
        [ ("recipientAndVisitObservations", .str f.narrative.recipientAndVisitObservations),
          ("healthEmotionalStatus", .str f.narrative.healthEmotionalStatus),
          ("reviewOfServices", .str f.narrative.reviewOfServices),
          ("progressTowardGoals", .str f.narrative.progressTowardGoals),
          ("additionalNotes", .str f.narrative.additionalNotes),
          ("followUpTasks", .str f.narrative.followUpTasks) ]),
      ("signature", .obj
        [ ("careCoordinatorName", .str f.signature.careCoordinatorName),
          ("signature", .str f.signature.signature),
          ("dateSigned", .str f.signature.dateSigned) ]) ]

/-! ### Confidence scorer (`generateConfidenceScores` in `parser.ts`) -/

/-- One entry of the per-field confidence list (`FieldConfidence`). -/
structure FieldConfidence where
  field : String
  confidence : ConfidenceLevel
  ocrConfidence : Rat
  source : ScoreMethod
deriving DecidableEq, Repr

/-- The tier assigned to one field by the `addField` closure inside
`generateConfidenceScores`: map the base OCR confidence to a coarse tier
(`>80` high, `>50` medium, else low), demote one tier for `ocr-only`,
promote one tier for `llm-categorized` when the field is populated, and
force `low` for unpopulated fields. -/
def fieldLevel (baseOcrConfidence : Rat) (method : ScoreMethod) (hasValue : Bool) :
    ConfidenceLevel :=
  let baseConfidence : ConfidenceLevel :=
    if baseOcrConfidence > 80 then .high
    else if baseOcrConfidence > 50 then .medium
    else .low
  let demote : ConfidenceLevel → ConfidenceLevel := fun l =>
    match l with
    | .high => .medium
    | .medium => .low
    | .low => .low
  let promote : ConfidenceLevel → ConfidenceLevel := fun l =>
    match l with
    | .low => .medium
    | .medium => .high
    | .high => .high
  let level₁ : ConfidenceLevel :=
    if method = .ocrOnly then demote baseConfidence else baseConfidence
  let level₂ : ConfidenceLevel :=
    if method = .llmCategorized ∧ hasValue = true then promote level₁ else level₁
  match hasValue with
  | false => .low
  | true => level₂

/-- `generateConfidenceScores` of `parser.ts`: the full per-field confidence
list, one entry per schema leaf in the fixed source order (6 header fields,
the 2 checkboxes — always passed `hasValue = true` —, 6 narrative fields,
3 signature fields). -/
def generateConfidenceScores (form : MonthlyCareCoordinationForm)
    (baseOcrConfidence : Rat) (method : ScoreMethod) : List FieldConfidence :=
  let addField : String → Bool → FieldConfidence := fun field hasValue =>
    { field, confidence := fieldLevel baseOcrConfidence method hasValue,
      ocrConfidence := baseOcrConfidence, source := method }
  [ addField "header.recipientName" (form.header.recipientName != ""),
    addField "header.date" (form.header.date != ""),
    addField "header.time" (form.header.time != ""),
    addField "header.recipientIdentifier" (form.header.recipientIdentifier != ""),
    addField "header.dob" (form.header.dob != ""),
    addField "header.location" (form.header.location != ""),
    addField "careCoordinationType.sih" true,
    addField "careCoordinationType.hcbw" true,
    addField "narrative.recipientAndVisitObservations"
      (form.narrative.recipientAndVisitObservations != ""),
    addField "narrative.healthEmotionalStatus" (form.narrative.healthEmotionalStatus != ""),
    addField "narrative.reviewOfServices" (form.narrative.reviewOfServices != ""),
    addField "narrative.progressTowardGoals" (form.narrative.progressTowardGoals != ""),
    addField "narrative.additionalNotes" (form.narrative.additionalNotes != ""),
    addField "narrative.followUpTasks" (form.narrative.followUpTasks != ""),
    addField "signature.careCoordinatorName" (form.signature.careCoordinatorName != ""),
    addField "signature.signature" (form.signature.signature != ""),
    addField "signature.dateSigned" (form.signature.dateSigned != "") ]

/-- The string value stored at a (non-checkbox) schema leaf path, `none` for
checkbox paths and unknown paths. -/
def stringFieldValue (f : MonthlyCareCoordinationForm) : String → Option String
  | "header.recipientName" => some f.header.recipientName
  | "header.date" => some f.header.date
  | "header.time" => some f.header.time
  | "header.recipientIdentifier" => some f.header.recipientIdentifier
  | "header.dob" => some f.header.dob
  | "header.location" => some f.header.location
  | "narrative.recipientAndVisitObservations" => some f.narrative.recipientAndVisitObservations
  | "narrative.healthEmotionalStatus" => some f.narrative.healthEmotionalStatus
  | "narrative.reviewOfServices" => some f.narrative.reviewOfServices
  | "narrative.progressTowardGoals" => some f.narrative.progressTowardGoals
  | "narrative.additionalNotes" => some f.narrative.additionalNotes
  | "narrative.followUpTasks" => some f.narrative.followUpTasks
  | "signature.careCoordinatorName" => some f.signature.careCoordinatorName
  | "signature.signature" => some f.signature.signature
  | "signature.dateSigned" => some f.signature.dateSigned
  | _ => none

/-! ### JavaScript string primitives -/

/-- The JS `\s` character class and the characters removed by
`String.prototype.trim` (ASCII part plus NBSP; exotic Unicode spaces are not
produced by any input considered here). -/
def jsWhitespace (c : Char) : Bool :=
  " \t\n\r\x0b\x0c ".data.contains c

/-- JS `String.prototype.trim`. -/
def jsTrim (s : String) : String :=
  String.mk (((s.data.dropWhile jsWhitespace).reverse.dropWhile jsWhitespace).reverse)

/-- JS `String.prototype.toLowerCase` (character-wise). -/
def jsToLower (s : String) : String := String.mk (s.data.map Char.toLower)

/-- JS `String.prototype.indexOf` scanning a suffix, accumulating the index. -/
def indexOfAux (needle : List Char) : List Char → Nat → Option Nat
  | [], i => if needle.isEmpty then some i else none
  | c :: rest, i =>
      if needle.isPrefixOf (c :: rest) then some i else indexOfAux needle rest (i + 1)

/-- JS `hay.indexOf(needle)` (`none` for -1). -/
def jsIndexOf (hay needle : String) : Option Nat := indexOfAux needle.data hay.data 0

/-- JS `hay.indexOf(needle, start)` (`none` for -1). -/
def jsIndexOfFrom (hay needle : String) (start : Nat) : Option Nat :=
  (indexOfAux needle.data (hay.data.drop start) 0).map (· + start)

/-- JS `String.prototype.includes` (no start offset). -/
def jsIncludes (s sub : String) : Bool := (jsIndexOf s sub).isSome

/-! ### A small backtracking regex matcher

The rule-based extractor and the JSON-extraction fallbacks use a handful of
JavaScript regular expressions.  They are embedded through an explicit regex
AST matched with JS semantics: the leftmost starting position wins,
alternatives are tried left to right, `?`/`*`/`{m,n}` are greedy (longest
first) and `*?` is lazy (shortest first), with full backtracking into earlier
subexpressions.  Quantifiers only ever apply to single-character classes in
the source regexes, which keeps the matcher structurally recursive. -/

/-- Regex AST: case-sensitive and case-insensitive literals, one-character
classes, sequencing, ordered alternation, greedy option, greedy and lazy
star over a class, and greedy bounded repetition over a class. -/
inductive RE where
  | str (lit : String)
  | istr (lit : String)
  | cls (p : Char → Bool)
  | seq (a b : RE)
  | alt (a b : RE)
  | opt (r : RE)
  | star (p : Char → Bool)
  | lazyStar (p : Char → Bool)
  | rep (p : Char → Bool) (lo hi : Nat)

/-- Strip a case-sensitive literal from the front of the input. -/
def stripLit : List Char → List Char → Option (List Char)
  | [], s => some s
  | _, [] => none
  | c :: cs, d :: ds => if d == c then stripLit cs ds else none

/-- Strip a case-insensitive literal from the front of the input. -/
def stripLitCI : List Char → List Char → Option (List Char)
  | [], s => some s
  | _, [] => none
  | c :: cs, d :: ds => if d.toLower == c.toLower then stripLitCI cs ds else none

/-- Drop counts `hi, hi-1, …, lo` (greedy order). -/
def downFrom (hi lo : Nat) : List Nat := (List.range (hi + 1 - lo)).map (fun i => hi - i)

/-- Drop counts `lo, lo+1, …, hi` (lazy order). -/
def upTo (lo hi : Nat) : List Nat := (List.range (hi + 1 - lo)).map (fun i => lo + i)

/-- CPS backtracking matcher: try to match `r` at the front of `s`, invoking
the continuation `k` on each candidate remainder in JS backtracking order and
returning the first success. -/
def matchCps : RE → List Char → (List Char → Option α) → Option α
  | .str lit, s, k =>
      match stripLit lit.data s with
      | some rest => k rest
      | none => none
  | .istr lit, s, k =>
      match stripLitCI lit.data s with
      | some rest => k rest
      | none => none
  | .cls p, s, k =>
      match s with
      | c :: rest => if p c then k rest else none
      | [] => none
  | .seq a b, s, k => matchCps a s (fun rest => matchCps b rest k)
  | .alt a b, s, k => matchCps a s k <|> matchCps b s k
  | .opt r, s, k => matchCps r s k <|> k s
  | .star p, s, k =>
      let run := (s.takeWhile p).length
      (downFrom run 0).findSome? (fun i => k (s.drop i))
  | .lazyStar p, s, k =>
      let run := (s.takeWhile p).length
      (upTo 0 run).findSome? (fun i => k (s.drop i))
  | .rep p lo hi, s, k =>
      let run := (s.takeWhile p).length
      if run < lo then none
      else (downFrom (min hi run) lo).findSome? (fun i => k (s.drop i))

/-- Match `pre`, then a capture group `cap`, then `post` at the front of the
input, returning the text consumed by the capture group for the first
success in backtracking order. -/
def capMid (pre cap post : RE) (s : List Char) : Option String :=
  matchCps pre s (fun r₁ =>
    matchCps cap r₁ (fun r₂ =>
      matchCps post r₂ (fun _ =>
        some (String.mk (r₁.take (r₁.length - r₂.length))))))

/-- Leftmost-position search, as JS `String.prototype.match`: try each start
position from the left, returning the first capture. -/
def jsFindCapAux (pre cap post : RE) : List Char → Option String
  | [] => capMid pre cap post []
  | c :: rest => capMid pre cap post (c :: rest) <|> jsFindCapAux pre cap post rest

/-- JS `line.match(/pre(cap)post/)`, returning the first capture group. -/
def jsFindCap (pre cap post : RE) (s : String) : Option String :=
  jsFindCapAux pre cap post s.data

/-- Does the regex match anywhere in the suffix list (JS `RegExp.test`)? -/
def jsTestAux (r : RE) : List Char → Bool
  | [] => (matchCps (α := Unit) r [] (fun _ => some ())).isSome
  | c :: rest =>
      (matchCps (α := Unit) r (c :: rest) (fun _ => some ())).isSome || jsTestAux r rest

/-- JS `RegExp.test`. -/
def jsTest (r : RE) (s : String) : Bool := jsTestAux r s.data

/-- JS `s.match(re)` for a regex with no capture groups, returning the whole
matched text (`match[0]`). -/
def jsMatchWhole (r : RE) (s : String) : Option String := jsFindCap (.str "") r (.str "") s

/-- JS `\d` (ASCII digits). -/
def jsDigit (c : Char) : Bool := c.isDigit

/-- JS `.` — any character except line terminators. -/
def dotChar (c : Char) : Bool :=
  !(c == '\n' || c == '\r' || c == ' ' || c == ' ')

/-- Any character (`[\s\S]`). -/
def anyChar (_ : Char) : Bool := true

/-- `\s*`. -/
def wsStar : RE := .star jsWhitespace

/-- `\s*[:\-]?\s*` — the key/value separator used by all header matchers. -/
def keySep : RE := .seq wsStar (.seq (.opt (.cls (fun c => c == ':' || c == '-'))) wsStar)

/-- `(.+)` — greedy non-empty capture. -/
def dotPlus : RE := .seq (.cls dotChar) (.star dotChar)

/-- `[\/\-\.]` — the date component separator class. -/
def dateSep : RE := .cls (fun c => c == '/' || c == '-' || c == '.')

/-- `\d{1,2}[\/\-\.]\d{1,2}[\/\-\.]\d{2,4}` — the date capture. -/
def dateCapRE : RE :=
  .seq (.rep jsDigit 1 2) (.seq dateSep (.seq (.rep jsDigit 1 2) (.seq dateSep (.rep jsDigit 2 4))))

/-- `\d{1,2}:\d{2}\s*(?:AM|PM|am|pm)?` — the time capture. -/
def timeCapRE : RE :=
  .seq (.rep jsDigit 1 2) (.seq (.cls (fun c => c == ':'))
    (.seq (.rep jsDigit 2 2) (.seq wsStar
      (.opt (.alt (.istr "AM") (.alt (.istr "PM") (.alt (.istr "am") (.istr "pm"))))))))

/-- JS `\w`. -/
def isWordChar (c : Char) : Bool :=
  ('a' ≤ c && c ≤ 'z') || ('A' ≤ c && c ≤ 'Z') || ('0' ≤ c && c ≤ '9') || c == '_'

/-- `name\s*:` with no word character before `name`. -/
def nameColonRE : RE := .seq (.str "name") (.seq wsStar (.cls (fun c => c == ':')))

/-- JS `lowerLine.match(/\bname\s*:/)` as a boolean test: scan positions left
to right, tracking the previous character for the word boundary. -/
def testNameColonAux : Option Char → List Char → Bool
  | _, [] => false
  | prev, c :: rest =>
      (prev.all (fun p => !isWordChar p) &&
        (matchCps (α := Unit) nameColonRE (c :: rest) (fun _ => some ())).isSome)
      || testNameColonAux (some c) rest

/-- JS `lowerLine.match(/\bname\s*:/)` as a boolean. -/
def testNameColon (lower : String) : Bool := testNameColonAux none lower.data

/-- `/\[x\]|[X]|checked|yes/i` — the shared checkbox "checked" pattern. -/
def checkedRE : RE :=
  .alt (.istr "[x]")
    (.alt (.cls (fun c => c == 'X' || c == 'x')) (.alt (.istr "checked") (.istr "yes")))

/-! ### Rule-based extractor (`parseWithRules` in `parser.ts`) -/

/-- One pass of the per-line pattern matching in `parseWithRules`: header
fields and checkboxes.  Each test mirrors one `if` in the source loop; the
substring tests run on the lowercased line, the capturing matches on the
original line (all source regexes carry the `i` flag). -/
def applyRuleLine (form : MonthlyCareCoordinationForm) (line : String) :
    MonthlyCareCoordinationForm :=
  let lowerLine := jsToLower line
  let form :=
    if jsIncludes lowerLine "recipient name" || testNameColon lowerLine then
      match jsFindCap (.seq (.alt (.istr "recipient name") (.istr "name")) keySep)
          dotPlus (.str "") line with
      | some m => { form with header.recipientName := jsTrim m }
      | none => form
    else form
  let form :=
    if jsIncludes lowerLine "date" && !jsIncludes lowerLine "birth" then
      match jsFindCap (.seq (.istr "date") keySep) dateCapRE (.str "") line with
      | some m => { form with header.date := jsTrim m }
      | none => form
    else form
  let form :=
    if jsIncludes lowerLine "time" then
      match jsFindCap (.seq (.istr "time") keySep) timeCapRE (.str "") line with
      | some m => { form with header.time := jsTrim m }
      | none => form
    else form
  let form :=
    if jsIncludes lowerLine "dob" || jsIncludes lowerLine "date of birth" then
      match jsFindCap (.seq (.alt (.istr "dob") (.istr "date of birth")) keySep)
          dateCapRE (.str "") line with
      | some m => { form with header.dob := jsTrim m }
      | none => form
    else form
  let form :=
    if jsIncludes lowerLine "location" then
      match jsFindCap (.seq (.istr "location") keySep) dotPlus (.str "") line with
      | some m => { form with header.location := jsTrim m }
      | none => form
    else form
  let form :=
    if jsIncludes lowerLine "identifier" || jsIncludes lowerLine "id" then
      match jsFindCap
          (.seq (.alt (.istr "recipient identifier") (.alt (.istr "identifier") (.istr "id")))
            keySep) dotPlus (.str "") line with
      | some m => { form with header.recipientIdentifier := jsTrim m }
      | none => form
    else form
  let form :=
    if jsIncludes lowerLine "sih" then
      { form with careCoordinationType.sih := jsTest checkedRE line }
    else form
  let form :=
    if jsIncludes lowerLine "hcbw" then
      { form with careCoordinationType.hcbw := jsTest checkedRE line }
    else form
  form

/-- The global narrative section-header list of `findNextSectionIndex`. -/
def sectionHeaders : List String :=
  [ "recipient & visit observations",
    "recipient and visit observations",
    "health/emotional status",
    "review of services",
    "progress toward goals",
    "additional notes",
    "follow up tasks",
    "followup tasks",
    "care coordinator follow up",
    "signature" ]

/-- `findNextSectionIndex` of `parser.ts`: the smallest index `≥ startPos` of
any global section header in the lowercased text, defaulting to the text
length. -/
def findNextSectionIndex (lowerText : String) (startPos : Nat) : Nat :=
  sectionHeaders.foldl
    (fun nextIndex header =>
      match jsIndexOfFrom lowerText header startPos with
      | some idx => if idx < nextIndex then idx else nextIndex
      | none => nextIndex)
    lowerText.data.length

/-- The inner loop of `extractNarrativeSections` for one section: try each
alias in order; on a hit, take the text up to the next section header, trim
it, accept it only if longer than 10 characters, truncated to 1000. -/
def extractSection (text lowerText : String) (patterns : List String) : Option String :=
  patterns.findSome? (fun pattern =>
    match jsIndexOf lowerText pattern with
    | some idx =>
        let start := idx + pattern.length
        let endIdx := findNextSectionIndex lowerText start
        let content := jsTrim (String.mk ((text.data.drop start).take (endIdx - start)))
        if content.length > 10 then some (String.mk (content.data.take 1000)) else none
    | none => none)

/-- The optional per-section results of `extractNarrativeSections`
(`Partial<…['narrative']>` in the source). -/
structure ExtractedSections where
  recipientAndVisitObservations : Option String
  healthEmotionalStatus : Option String
  reviewOfServices : Option String
  progressTowardGoals : Option String
  additionalNotes : Option String
  followUpTasks : Option String
deriving DecidableEq, Repr

/-- `extractNarrativeSections` of `parser.ts`: scan the full text for each
section's alias list. -/
def extractNarrativeSections (text : String) : ExtractedSections :=
  let lowerText := jsToLower text
  { recipientAndVisitObservations := extractSection text lowerText
      ["recipient & visit observations", "recipient and visit observations",
       "visit observations"],
    healthEmotionalStatus := extractSection text lowerText
      ["health/emotional status", "health emotional status", "med changes", "health status"],
    reviewOfServices := extractSection text lowerText
      ["review of services", "services review"],
    progressTowardGoals := extractSection text lowerText
      ["progress toward goals", "progress to goals", "goals progress"],
    additionalNotes := extractSection text lowerText
      ["additional notes", "notes"],
    followUpTasks := extractSection text lowerText
      ["follow up tasks", "followup tasks", "care coordinator follow up"] }

/-- The object spread `{ ...form.narrative, ...sections }`: extracted
sections override the existing narrative fields. -/
def mergeNarrative (n : NarrativeSections) (s : ExtractedSections) : NarrativeSections :=
  { recipientAndVisitObservations :=
      s.recipientAndVisitObservations.getD n.recipientAndVisitObservations,
    healthEmotionalStatus := s.healthEmotionalStatus.getD n.healthEmotionalStatus,
    reviewOfServices := s.reviewOfServices.getD n.reviewOfServices,
    progressTowardGoals := s.progressTowardGoals.getD n.progressTowardGoals,
    additionalNotes := s.additionalNotes.getD n.additionalNotes,
    followUpTasks := s.followUpTasks.getD n.followUpTasks }

/-- The OCR-only informational note pushed when the LLM is unavailable. -/
def ocrOnlyNote : String :=
  "OCR-only mode: Ollama not available. Fields extracted using pattern matching only."

/-- The unconditional review advisory pushed by `parseWithRules`. -/
def reviewNote : String :=
  "Please review all fields carefully as automated extraction may contain errors."

/-- `notes.join('\n')` as assembled by `parseWithRules`: the OCR-only note
(only when the LLM is unavailable) followed by the review advisory. -/
def rulesAdvisoryNotes (ollamaAvailable : Bool) : String :=
  String.intercalate "\n" ((if ollamaAvailable then [] else [ocrOnlyNote]) ++ [reviewNote])

/-- The `additionalNotes` update of `parseWithRules`: the advisory notes are
prepended, separated by a blank line from any extracted content. -/
def prependAdvisoryNotes (ollamaAvailable : Bool) (existing : String) : String :=
  if existing != "" then rulesAdvisoryNotes ollamaAvailable ++ "\n\n" ++ existing
  else rulesAdvisoryNotes ollamaAvailable

/-- The uniform result envelope (`ParseResult` in `parser.ts`). -/
structure ParseResult where
  form : MonthlyCareCoordinationForm
  confidence : List FieldConfidence
  extractionMethod : ExtractionMethod
  ollamaAvailable : Bool
  validationIssues : Option (List String) := none
deriving DecidableEq, Repr

/-- `parseWithRules` of `parser.ts`: the rule-based (OCR-only) extractor.
Split into trimmed, non-empty lines; run the per-line header/checkbox
matchers; extract narrative sections from the full text; prepend the
advisory notes to `additionalNotes`; score every field. -/
def parseWithRules (text : String) (ocrConfidence : Rat) (ollamaAvailable : Bool) :
    ParseResult :=
  let lines := ((text.splitOn "\n").map jsTrim).filter (fun l => l != "")
  let form := lines.foldl applyRuleLine createEmptyForm
  let form := { form with narrative := mergeNarrative form.narrative (extractNarrativeSections text) }
  let form :=
    { form with narrative.additionalNotes :=
        prependAdvisoryNotes ollamaAvailable form.narrative.additionalNotes }
  { form := form,
    confidence := generateConfidenceScores form ocrConfidence .ocrOnly,
    extractionMethod := .ocrOnly,
    ollamaAvailable := ollamaAvailable }

/-! ### `JSON.parse`

A fueled recursive-descent parser for the JSON grammar, modelling JS
`JSON.parse`: standard whitespace, objects with last-duplicate-wins keys,
arrays, strings with the JSON escape set, numbers (kept as lexemes), and the
three literals.  Trailing garbage is an error. -/

/-- JSON insignificant whitespace (space, tab, newline, carriage return). -/
def jsonWs (c : Char) : Bool :=
  let n := c.toNat
  n == 32 || n == 9 || n == 10 || n == 13

/-- Skip JSON whitespace. -/
def skipWs (s : List Char) : List Char := s.dropWhile jsonWs

/-- Hex digit value, by code point. -/
def hexVal (c : Char) : Option Nat :=
  let n := c.toNat
  if 48 ≤ n && n ≤ 57 then some (n - 48)
  else if 97 ≤ n && n ≤ 102 then some (n - 87)
  else if 65 ≤ n && n ≤ 70 then some (n - 55)
  else none

/-- The single-character JSON escapes (`\"`, `\\`, `\/`, `\b`, `\f`, `\n`,
`\r`, `\t`). -/
def jsonEscapeChar (e : Char) : Option Char :=
  if e == '"' || e == '\\' || e == '/' then some e
  else if e == 'b' then some '\x08'
  else if e == 'f' then some '\x0c'
  else if e == 'n' then some '\n'
  else if e == 'r' then some '\r'
  else if e == 't' then some '\t'
  else none

/-- JSON string body after the opening quote; `acc` is reversed.  `\uXXXX`
escapes outside the valid scalar range degrade to `Char.ofNat`'s default
(lone surrogates are representable in JS strings but arise in no input
considered here). -/
def parseStrAux : Nat → List Char → List Char → Option (String × List Char)
  | 0, _, _ => none
  | fuel + 1, acc, input =>
      match input with
      | [] => none
      | '"' :: more => some (String.mk acc.reverse, more)
      | '\\' :: 'u' :: h₁ :: h₂ :: h₃ :: h₄ :: more =>
          (match hexVal h₁, hexVal h₂, hexVal h₃, hexVal h₄ with
           | some a, some b, some c, some d =>
               parseStrAux fuel (Char.ofNat (a * 4096 + b * 256 + c * 16 + d) :: acc) more
           | _, _, _, _ => none)
      | '\\' :: e :: more =>
          (match jsonEscapeChar e with
           | some decoded => parseStrAux fuel (decoded :: acc) more
           | none => none)
      | c :: more => if c.toNat < 32 then none else parseStrAux fuel (c :: acc) more

/-- Lex a JSON number, returning its lexeme. -/
def lexNumber (s : List Char) : Option (String × List Char) :=
  let (sign, s₁) :=
    match s with
    | '-' :: rest => (['-'], rest)
    | _ => (([] : List Char), s)
  let intPart : Option (List Char × List Char) :=
    match s₁ with
    | '0' :: rest => some (['0'], rest)
    | c :: rest =>
        if '1' ≤ c && c ≤ '9' then
          let ds := rest.takeWhile Char.isDigit
          some (c :: ds, rest.drop ds.length)
        else none
    | [] => none
  match intPart with
  | none => none
  | some (ip, s₂) =>
      let fracPart : Option (List Char × List Char) :=
        match s₂ with
        | '.' :: rest =>
            let ds := rest.takeWhile Char.isDigit
            if ds.isEmpty then none else some ('.' :: ds, rest.drop ds.length)
        | _ => some ([], s₂)
      match fracPart with
      | none => none
      | some (fp, s₃) =>
          let expPart : Option (List Char × List Char) :=
            match s₃ with
            | e :: rest =>
                if e == 'e' || e == 'E' then
                  let (sgn, r₂) :=
                    match rest with
                    | '+' :: r => (['+'], r)
                    | '-' :: r => (['-'], r)
                    | _ => (([] : List Char), rest)
                  let ds := r₂.takeWhile Char.isDigit
                  if ds.isEmpty then none else some (e :: (sgn ++ ds), r₂.drop ds.length)
                else some ([], s₃)
            | [] => some ([], s₃)
          match expPart with
          | none => none
          | some (ep, s₄) => some (String.mk (sign ++ ip ++ fp ++ ep), s₄)

/-- Insert a key into a JS object: a duplicate key overwrites the value at
its original position, a new key is appended (JS property-assignment and
`JSON.parse` duplicate-key semantics). -/
def objInsert : List (String × Json) → String → Json → List (String × Json)
  | [], k, v => [(k, v)]
  | (k', v') :: rest, k, v =>
      if k' == k then (k, v) :: rest else (k', v') :: objInsert rest k v

mutual

/-- Parse one JSON value at the front of the input (no leading whitespace). -/
def parseVal : Nat → List Char → Option (Json × List Char)
  | 0, _ => none
  | fuel + 1, s =>
      match s with
      | [] => none
      | '{' :: rest =>
          let r := skipWs rest
          (match r with
           | '}' :: r₂ => some (.obj [], r₂)
           | _ => (parseMembers fuel [] r).map (fun p => (Json.obj p.1, p.2)))
      | '[' :: rest =>
          let r := skipWs rest
          (match r with
           | ']' :: r₂ => some (.arr [], r₂)
           | _ => (parseElems fuel [] r).map (fun p => (Json.arr p.1, p.2)))
      | '"' :: rest => (parseStrAux (rest.length + 1) [] rest).map (fun p => (Json.str p.1, p.2))
      | 't' :: _ => (stripLit "true".data s).map (fun r => (Json.bool true, r))
      | 'f' :: _ => (stripLit "false".data s).map (fun r => (Json.bool false, r))
      | 'n' :: _ => (stripLit "null".data s).map (fun r => (Json.null, r))
      | _ => (lexNumber s).map (fun p => (Json.num p.1, p.2))

/-- Parse the members of an object after the opening brace (at a key). -/
def parseMembers (fuel : Nat) (acc : List (String × Json)) (s : List Char) :
    Option (List (String × Json) × List Char) :=
  match fuel with
  | 0 => none
  | fuel + 1 =>
      match s with
      | '"' :: rest =>
          match parseStrAux (rest.length + 1) [] rest with
          | none => none
          | some (key, r₁) =>
              match skipWs r₁ with
              | ':' :: r₂ =>
                  match parseVal fuel (skipWs r₂) with
                  | none => none
                  | some (v, r₃) =>
                      let acc' := objInsert acc key v
                      (match skipWs r₃ with
                       | ',' :: r₄ => parseMembers fuel acc' (skipWs r₄)
                       | '}' :: r₄ => some (acc', r₄)
                       | _ => none)
              | _ => none
      | _ => none

/-- Parse the elements of an array after the opening bracket (at a value). -/
def parseElems (fuel : Nat) (acc : List Json) (s : List Char) :
    Option (List Json × List Char) :=
  match fuel with
  | 0 => none
  | fuel + 1 =>
      match parseVal fuel s with
      | none => none
      | some (v, r₁) =>
          (match skipWs r₁ with
           | ',' :: r₂ => parseElems fuel (acc ++ [v]) (skipWs r₂)
           | ']' :: r₂ => some (acc ++ [v], r₂)
           | _ => none)

end

/-- JS `JSON.parse`: `none` where it would throw a `SyntaxError`. -/
def parseJson (s : String) : Option Json :=
  match parseVal (s.data.length + 2) (skipWs s.data) with
  | some (j, rest) => if (skipWs rest).isEmpty then some j else none
  | none => none

/-! ### JSON-extraction fallback chains (`parseWithLLM` and `categorizeText`) -/

/-- The fenced-block regex of `parseWithLLM`/`parseWithVisionLLM` in
`parser.ts`: a required `json` tag, case-sensitive, lazy body. -/
def fencedJsonStrict (resp : String) : Option String :=
  jsFindCap (.seq (.str "```json") (.opt (.cls (fun c => c == '\n'))))
    (.lazyStar anyChar)
    (.seq (.opt (.cls (fun c => c == '\n'))) (.str "```")) resp

/-- The fenced-block regex of `categorizeText` in `llmCategorizer.ts`: the
`json` tag is optional. -/
def fencedJsonLoose (resp : String) : Option String :=
  jsFindCap (.seq (.str "```") (.seq (.opt (.str "json")) (.opt (.cls (fun c => c == '\n')))))
    (.lazyStar anyChar)
    (.seq (.opt (.cls (fun c => c == '\n'))) (.str "```")) resp

/-- The brace-span regex of `categorizeText`: first `\x7b` to last `\x7d`,
whole match. -/
def braceSpan (resp : String) : Option String :=
  jsMatchWhole (.seq (.cls (fun c => c == '{')) (.seq (.star anyChar) (.cls (fun c => c == '}'))))
    resp

/-- The JSON-parsing stage of `parseWithLLM` (and, identically,
`parseWithVisionLLM`) in `parser.ts`: direct `JSON.parse`, then extraction of
a ```` ```json ````-fenced block.  When the fenced block is found but its
body fails to parse, the inner `JSON.parse` exception propagates; when no
block is found, the function throws `Invalid JSON from LLM`.  There is no
further fallback. -/
def parseWithLLMJson (llmResponse : String) : Except String Json :=
  match parseJson llmResponse with
  | some parsed => .ok parsed
  | none =>
      match fencedJsonStrict llmResponse with
      | some inner =>
          match parseJson inner with
          | some parsed => .ok parsed
          | none => .error "SyntaxError"
      | none => .error "Invalid JSON from LLM"

/-- The JSON-parsing stage of `categorizeText` in `llmCategorizer.ts`:
direct parse, then a (json-optional) fenced block whose body is trimmed, then
the first-to-last brace span.  A fenced block that fails to parse raises
without trying the brace span. -/
def categorizeTextJson (rawOutput : String) : Except String Json :=
  match parseJson rawOutput with
  | some parsed => .ok parsed
  | none =>
      match fencedJsonLoose rawOutput with
      | some inner =>
          match parseJson (jsTrim inner) with
          | some parsed => .ok parsed
          | none => .error "Could not parse JSON from code block"
      | none =>
          match braceSpan rawOutput with
          | some span =>
              match parseJson span with
              | some parsed => .ok parsed
              | none => .error "Could not parse JSON from matched brackets"
          | none => .error "No JSON object found in LLM output"

/-- Modelled from the spec: the three-tier fallback chain the spec
attributes to the LLM Text Extractor — "direct parse → extract fenced code
block → extract first `\x7b...\x7d` span; each failure falls through to the next
extraction strategy, final failure raises".  Stated for comparison with
`parseWithLLMJson`. -/
def specThreeTierParse (resp : String) : Except String Json :=
  match parseJson resp with
  | some j => .ok j
  | none =>
      match (fencedJsonStrict resp).bind (fun inner => parseJson inner) with
      | some j => .ok j
      | none =>
          match (braceSpan resp).bind (fun span => parseJson span) with
          | some j => .ok j
          | none => .error "no JSON found"

/-! ### Categorizer validation phase (`validateCategorizedData` in
`llmCategorizer.ts`)

The categorized object is the raw result of the JSON-extraction chain: an
untyped value, not yet schema-validated, so the phase is modelled over
`Json`.  JS truthiness tests and string coercions are made explicit.  The
phase can throw: a truthy non-string `recipientName` receiving `.trim()` in
the required-name check raises a `TypeError`, so the phase returns `Except`
and errs exactly where that check throws (the steps around the check are
pure and total, so sequencing the check first is observationally the
source's order).  One remaining corner is collapsed: a truthy non-object
`header` would make the strict-mode property writes of the cleaning block
throw, and the model instead skips the block; that shape has a non-object
`header` section and so lies outside every claim settled here, all of which
hypothesize object-valued sections. -/

/-- A JS exception, identified by its `name` (`TimeoutError` for an
`AbortSignal.timeout` abort, `TypeError` for a method call on a value that
lacks it). -/
structure JsError where
  name : String
deriving DecidableEq, Repr

/-- One `{field, issue, suggestion?}` record of the validation phase. -/
structure ValidationIssue where
  field : String
  issue : String
  suggestion : Option String := none
deriving DecidableEq, Repr

/-- `value.toLowerCase().includes('string')` — the placeholder test. -/
def containsStringCI (s : String) : Bool := jsIncludes (jsToLower s) "string"

/-- Is a number lexeme the number zero (sign and exponent ignored)? -/
def numLexemeZero (raw : String) : Bool :=
  ((raw.data.takeWhile (fun c => !(c == 'e' || c == 'E'))).all
    (fun c => !c.isDigit || c == '0'))

/-- JS truthiness of an untyped value. -/
def jsTruthy : Json → Bool
  | .null => false
  | .bool b => b
  | .str s => s != ""
  | .num raw => !numLexemeZero raw
  | .arr _ => true
  | .obj _ => true

/-- JS string coercion of a scalar value (number lexemes kept verbatim
rather than renormalized; an array coerces to the empty string here, see
`jsToStr`). -/
def jsToStrAtom : Json → String
  | .null => "null"
  | .bool true => "true"
  | .bool false => "false"
  | .num raw => raw
  | .str s => s
  | .arr _ => ""
  | .obj _ => "[object Object]"

/-- JS string coercion (template-literal interpolation): scalars as
`jsToStrAtom`, arrays as their comma-joined elements (one level deep —
deeper nesting coerces in no input considered here). -/
def jsToStr : Json → String
  | .arr elems => String.intercalate "," (elems.map jsToStrAtom)
  | j => jsToStrAtom j

/-- JS optional chaining `j.k₁?.k₂` (undefined as `none`; property access on
primitive values yields undefined). -/
def optChain2 (j : Json) (k₁ k₂ : String) : Option Json :=
  match j with
  | .obj kvs =>
      match getField kvs k₁ with
      | some (.obj kvs₂) => getField kvs₂ k₂
      | _ => none
  | _ => none

/-- One step of the header cleaning: `form.header.key =
checkLiteralString(form.header.key, 'header.key')` — a string containing
"string" (case-insensitively) is cleared to empty and flagged; any other
value is written back unchanged. -/
def cleanHeaderField (h : List (String × Json)) (key : String) :
    List (String × Json) × List ValidationIssue :=
  match getField h key with
  | some (.str s) =>
      if containsStringCI s then
        (objInsert h key (.str ""),
         [{ field := "header." ++ key,
            issue := "Placeholder value found: \"" ++ s ++ "\"",
            suggestion := some "Field not properly extracted from source text" }])
      else (h, [])
  | _ => (h, [])

/-- The six header keys cleaned, in source order. -/
def headerCleanKeys : List String :=
  ["recipientName", "date", "time", "recipientIdentifier", "dob", "location"]

/-- Sequential header cleaning over a list of keys. -/
def cleanHeaderFold (h : List (String × Json)) : List String →
    List (String × Json) × List ValidationIssue
  | [] => (h, [])
  | k :: ks =>
      let step := cleanHeaderField h k
      let rest := cleanHeaderFold step.1 ks
      (rest.1, step.2 ++ rest.2)

/-- The header-cleaning block (`if (form.header) { … }`). -/
def cleanHeaderPhase (j : Json) : Json × List ValidationIssue :=
  match j with
  | .obj top =>
      match getField top "header" with
      | some (.obj h) =>
          let cleaned := cleanHeaderFold h headerCleanKeys
          (.obj (objInsert top "header" (.obj cleaned.1)), cleaned.2)
      | _ => (j, [])
  | _ => (j, [])

/-- The date regex of `validateCategorizedData`:
`(0[1-9]|1[0-2])/([0-2][0-9]|3[01])/dddd` anchored at both ends.  Note the
day alternative `[0-2][0-9]` admits `00`. -/
def dateRegexTest (s : String) : Bool :=
  match s.data with
  | [m₁, m₂, s₁, d₁, d₂, s₂, y₁, y₂, y₃, y₄] =>
      s₁ == '/' && s₂ == '/' &&
      ((m₁ == '0' && '1' ≤ m₂ && m₂ ≤ '9') || (m₁ == '1' && '0' ≤ m₂ && m₂ ≤ '2')) &&
      (('0' ≤ d₁ && d₁ ≤ '2' && d₂.isDigit) || (d₁ == '3' && (d₂ == '0' || d₂ == '1'))) &&
      y₁.isDigit && y₂.isDigit && y₃.isDigit && y₄.isDigit
  | _ => false

/-- Modelled from the spec: the "strict MM/DD/YYYY" pattern the claim
describes — month 01–12, two-digit day 01–31, four-digit year.  Stated for
comparison with `dateRegexTest`. -/
def specDatePattern (s : String) : Bool :=
  match s.data with
  | [m₁, m₂, s₁, d₁, d₂, s₂, y₁, y₂, y₃, y₄] =>
      s₁ == '/' && s₂ == '/' &&
      m₁.isDigit && m₂.isDigit && d₁.isDigit && d₂.isDigit &&
      (let month := (m₁.toNat - '0'.toNat) * 10 + (m₂.toNat - '0'.toNat)
       let day := (d₁.toNat - '0'.toNat) * 10 + (d₂.toNat - '0'.toNat)
       decide (1 ≤ month) && decide (month ≤ 12) && decide (1 ≤ day) && decide (day ≤ 31)) &&
      y₁.isDigit && y₂.isDigit && y₃.isDigit && y₄.isDigit
  | _ => false

/-- Is the value exactly the empty string (JS `value !== ''` negated)? -/
def isEmptyStrJson : Json → Bool
  | .str s => s == ""
  | _ => false

/-- A conditionally pushed issue (`if (…) \x7b issues.push(…) \x7d`). -/
def issueWhen (cond : Bool) (i : ValidationIssue) : List ValidationIssue :=
  if cond then [i] else []

/-- JS truthiness of a possibly-undefined value. -/
def jsTruthyOpt : Option Json → Bool
  | none => false
  | some v => jsTruthy v

/-- One date-format check (`date` or `dob`): flag a truthy, non-empty value
failing the date regex.  The value is only read, never written. -/
def dateIssueFor (j₁ : Json) (key field issueLabel : String) : List ValidationIssue :=
  match optChain2 j₁ "header" key with
  | some v =>
      issueWhen (jsTruthy v && !dateRegexTest (jsToStr v) && !isEmptyStrJson v)
        { field := field, issue := issueLabel ++ jsToStr v,
          suggestion := some "Should be MM/DD/YYYY" }
  | none => []

/-- The mutual-exclusivity advisory: both checkboxes truthy. -/
def checkboxIssues (j₁ : Json) : List ValidationIssue :=
  issueWhen (jsTruthyOpt (optChain2 j₁ "careCoordinationType" "sih") &&
      jsTruthyOpt (optChain2 j₁ "careCoordinationType" "hcbw"))
    { field := "careCoordinationType", issue := "Both SIH and HCBW are checked",
      suggestion := some "Usually only one is selected" }

/-- The record the required-field check pushes. -/
def nameIssueRecord : ValidationIssue :=
  { field := "header.recipientName", issue := "Recipient name not found in text",
    suggestion := some "Check OCR quality or manually enter" }

/-- The required-field check
`if (!form.header?.recipientName || form.header.recipientName.trim() === '')`:
a falsy or undefined `recipientName` is flagged without touching it; a
truthy string is flagged when trim-empty; on a truthy non-string value the
unconditional second read's `.trim()` call throws a `TypeError`. -/
def nameIssue (j₁ : Json) : Except JsError (List ValidationIssue) :=
  match optChain2 j₁ "header" "recipientName" with
  | none => .ok [nameIssueRecord]
  | some v =>
      if jsTruthy v then
        match v with
        | .str s => .ok (issueWhen (jsTrim s == "") nameIssueRecord)
        | _ => .error { name := "TypeError" }
      else .ok [nameIssueRecord]

/-- `Object.entries(form.narrative || \x7b\x7d)` (primitive narrative values have
no usable entries). -/
def narrativeEntries (j₁ : Json) : List (String × Json) :=
  match j₁ with
  | .obj top =>
      match getField top "narrative" with
      | some (.obj kvs) => kvs
      | _ => []
  | _ => []

/-- The narrative-quality test: some non-`followUpTasks` entry holds a string
longer than 20 characters that is not a placeholder. -/
def hasNarrativeContent (j₁ : Json) : Bool :=
  (narrativeEntries j₁).any (fun kv =>
    kv.1 != "followUpTasks" &&
    (match kv.2 with
     | .str v => decide (v.length > 20) && !containsStringCI v
     | _ => false))

/-- The generic narrative-quality advisory. -/
def narrativeQualityIssue (j₁ : Json) : List ValidationIssue :=
  issueWhen (!hasNarrativeContent j₁)
    { field := "narrative", issue := "No narrative content extracted",
      suggestion := some "OCR may have failed to capture text" }

/-- Clear a narrative value that is a string containing "string". -/
def cleanNarrativeValue (v : Json) : Json :=
  match v with
  | .str s => if containsStringCI s then .str "" else v
  | _ => v

/-- The final narrative placeholder-cleanup loop: clear placeholder strings
in place, recording no issue. -/
def narrativeCleanup (j₁ : Json) : Json :=
  match j₁ with
  | .obj top =>
      match getField top "narrative" with
      | some (.obj kvs) =>
          .obj (objInsert top "narrative"
            (.obj (kvs.map (fun kv => (kv.1, cleanNarrativeValue kv.2)))))
      | _ => j₁
  | _ => j₁

/-- `validateCategorizedData` of `llmCategorizer.ts`: header placeholder
cleaning (six fields, each flagged), the two date-format checks, the
checkbox-conflict advisory, the missing-name check, the narrative-quality
advisory, and the narrative placeholder cleanup; returns the issues in
source push order together with the corrected object, or the `TypeError` the
missing-name check throws.  The other steps are pure and total, so deciding
the throwing check first is observationally the source's sequencing: on the
throw path the source returns nothing, and no partial issue list escapes. -/
def validateCategorizedData (j : Json) : Except JsError (List ValidationIssue × Json) :=
  let phase₁ := cleanHeaderPhase j
  let j₁ := phase₁.1
  match nameIssue j₁ with
  | .error e => .error e
  | .ok nameIssues =>
      .ok (phase₁.2
        ++ dateIssueFor j₁ "date" "header.date" "Invalid date format: "
        ++ dateIssueFor j₁ "dob" "header.dob" "Invalid DOB format: "
        ++ checkboxIssues j₁
        ++ nameIssues
        ++ narrativeQualityIssue j₁,
       narrativeCleanup j₁)

/-- The issue list and corrected object of a completed validation phase (a
thrown phase yields the empty placeholder, used only where completion is
separately asserted). -/
def exceptOutput : Except JsError (List ValidationIssue × Json) →
    List ValidationIssue × Json
  | .ok out => out
  | .error _ => ([], .null)

/-! ### Pipeline orchestrator (`parseFormFromText` in `parser.ts`)

The orchestrator's effects are made explicit.  External outcomes — the
Ollama liveness endpoint, and the result of each LLM-backed strategy body as
a whole (network call, JSON extraction, schema validation) — are supplied by
an environment; a successful strategy yields a validated form.  The
process-wide `llmFailed` latch of `ollama.ts` is threaded as explicit state:
calling `parseFormFromText` with the latch value returned by the previous
call models a later request in the same process.  The output also records
which strategies were attempted, in order, and whether the health probe made
a network call. -/

/-- The outcome of one LLM-backed strategy body: a validated form (plus, for
the categorizer, its validation notes), or a thrown error. -/
inductive StrategyOutcome where
  | ok (form : MonthlyCareCoordinationForm) (notes : List String)
  | err (e : JsError)
deriving DecidableEq, Repr

/-- The external world of one extraction request. -/
structure OrchEnv where
  /-- `GET /api/tags` responds ok within the 2s probe timeout. -/
  tagsReachable : Bool
  /-- `DISABLE_LLM === 'true'`. -/
  disableLLM : Bool
  /-- `isMultimodalModel()`: the configured model name contains a known
  multimodal model substring. -/
  multimodal : Bool
  /-- Outcome of the vision strategy body (`parseWithVisionLLM`). -/
  vision : StrategyOutcome
  /-- Outcome of the categorizer strategy body (`parseWithLLMCategorizer`). -/
  categorizer : StrategyOutcome
  /-- Outcome of the plain text strategy body (`parseWithLLM`). -/
  llm : StrategyOutcome
deriving DecidableEq, Repr

/-- `checkOllamaHealth` of `ollama.ts`: short-circuit to `false` without a
network call when the session latch is set or LLM use is disabled, otherwise
probe `/api/tags`.  Returns (result, whether a network call was made). -/
def checkOllamaHealth (llmFailed : Bool) (env : OrchEnv) : Bool × Bool :=
  if llmFailed || env.disableLLM then (false, false)
  else (env.tagsReachable, true)

/-- The strategies, as attempt-trace entries. -/
inductive Strategy where
  | vision
  | categorizer
  | llmStructured
  | ruleBased
deriving DecidableEq, Repr

/-- JS truthiness of the optional image path argument (an empty path string
is falsy). -/
def imgTruthy : Option String → Bool
  | none => false
  | some s => s != ""

/-- Everything one call of the orchestrator produces: the result, the latch
value after the call, the attempted strategies in order, and whether the
health probe touched the network. -/
structure OrchOutput where
  result : ParseResult
  llmFailedAfter : Bool
  attempts : List Strategy
  healthNetworkCall : Bool
deriving DecidableEq, Repr

/-- Assemble the `ParseResult` a successful LLM-backed strategy returns:
each of `parseWithVisionLLM`, `parseWithLLMCategorizer` and `parseWithLLM`
scores the validated form and hardcodes `ollamaAvailable: true`. -/
def llmStrategyResult (form : MonthlyCareCoordinationForm) (ocrConfidence : Rat)
    (scoreMethod : ScoreMethod) (method : ExtractionMethod)
    (issues : Option (List String)) : ParseResult :=
  { form := form,
    confidence := generateConfidenceScores form ocrConfidence scoreMethod,
    extractionMethod := method,
    ollamaAvailable := true,
    validationIssues := issues }

/-- `parseFormFromText` of `parser.ts`: probe health once, compute
`useVision`, then try vision (image present, multimodal model, reachable
runtime, OCR confidence below 50), the categorizer (reachable, confidence
below 80), the plain text structurer (reachable), and finally the rule-based
extractor.  A vision failure only logs; a categorizer or text-LLM failure
whose error is a `TimeoutError` sets the session latch.  The categorizer's
validation notes become `validationIssues` when non-empty. -/
def parseFormFromText (env : OrchEnv) (llmFailed : Bool) (text : String)
    (ocrConfidence : Rat) (imagePath : Option String) : OrchOutput :=
  let health := checkOllamaHealth llmFailed env
  let ollamaAvailable := health.1
  let useVision := imgTruthy imagePath && env.multimodal
  let afterVision : Option OrchOutput :=
    if ollamaAvailable && useVision && imgTruthy imagePath && decide (ocrConfidence < 50) then
      match env.vision with
      | .ok form _ =>
          some { result := llmStrategyResult form ocrConfidence .visionLLM .visionLLM none,
                 llmFailedAfter := llmFailed, attempts := [.vision],
                 healthNetworkCall := health.2 }
      | .err _ => none
    else none
  match afterVision with
  | some out => out
  | none =>
      let visionTried : List Strategy :=
        if ollamaAvailable && useVision && imgTruthy imagePath && decide (ocrConfidence < 50)
        then [.vision] else []
      let afterCategorizer : Option OrchOutput :=
        if ollamaAvailable && decide (ocrConfidence < 80) then
          match env.categorizer with
          | .ok form notes =>
              some { result := llmStrategyResult form ocrConfidence .llmCategorized
                       .llmCategorized (if notes.length > 0 then some notes else none),
                     llmFailedAfter := llmFailed,
                     attempts := visionTried ++ [.categorizer],
                     healthNetworkCall := health.2 }
          | .err _ => none
        else none
      match afterCategorizer with
      | some out => out
      | none =>
          let categorizerTried : List Strategy :=
            if ollamaAvailable && decide (ocrConfidence < 80) then [.categorizer] else []
          let failed₁ :=
            llmFailed ||
              (ollamaAvailable && decide (ocrConfidence < 80) &&
                (match env.categorizer with
                 | .err e => e.name == "TimeoutError"
                 | .ok _ _ => false))
          let afterLLM : Option OrchOutput :=
            if ollamaAvailable then
              match env.llm with
              | .ok form _ =>
                  some { result := llmStrategyResult form ocrConfidence .llmStructured
                           .llmStructured none,
                         llmFailedAfter := failed₁,
                         attempts := visionTried ++ categorizerTried ++ [.llmStructured],
                         healthNetworkCall := health.2 }
              | .err _ => none
            else none
          match afterLLM with
          | some out => out
          | none =>
              let llmTried : List Strategy := if ollamaAvailable then [.llmStructured] else []
              let failed₂ :=
                failed₁ ||
                  (ollamaAvailable &&
                    (match env.llm with
                     | .err e => e.name == "TimeoutError"
                     | .ok _ _ => false))
              { result := parseWithRules text ocrConfidence ollamaAvailable,
                llmFailedAfter := failed₂,
                attempts := visionTried ++ categorizerTried ++ llmTried ++ [.ruleBased],
                healthNetworkCall := health.2 }

/-! ### Concrete instances used by counterexamples and witnesses -/

/-- A model response that defeats the Text Extractor's chain (no valid JSON
prefix, no ```` ```json ```` fence) but contains a parseable brace span. -/
def llmResponseSample : String := "The extracted form is \x7b\"a\": 1\x7d"

/-- A form whose date has day `00`: accepted by the code's regex, rejected
by the spec's "day 01–31". -/
def dateDayZeroForm : MonthlyCareCoordinationForm :=
  { createEmptyForm with header.date := "12/00/2024" }

/-- A form whose date has month 13 (the spec's scenario 3). -/
def badMonthForm : MonthlyCareCoordinationForm :=
  { createEmptyForm with header.date := "13/45/2024" }

/-- A form with the literal placeholder in a signature field. -/
def signaturePlaceholderForm : MonthlyCareCoordinationForm :=
  { createEmptyForm with signature.careCoordinatorName := "string" }

/-- A form with placeholders in a header and a narrative field and a clean
signature value. -/
def placeholderForm : MonthlyCareCoordinationForm :=
  { createEmptyForm with
      header.time := "test string value",
      narrative.reviewOfServices := "another string here",
      signature.careCoordinatorName := "Sam" }

/-- The encoded header object of `badMonthForm`. -/
def badMonthHdr : List (String × Json) :=
  [("recipientName", .str ""), ("date", .str "13/45/2024"), ("time", .str ""),
   ("recipientIdentifier", .str ""), ("dob", .str ""), ("location", .str "")]

/-- The encoded header object of `placeholderForm`. -/
def placeholderHdr : List (String × Json) :=
  [("recipientName", .str ""), ("date", .str ""), ("time", .str "test string value"),
   ("recipientIdentifier", .str ""), ("dob", .str ""), ("location", .str "")]

/-- The encoded narrative object of `placeholderForm`. -/
def placeholderNar : List (String × Json) :=
  [("recipientAndVisitObservations", .str ""), ("healthEmotionalStatus", .str ""),
   ("reviewOfServices", .str "another string here"), ("progressTowardGoals", .str ""),
   ("additionalNotes", .str ""), ("followUpTasks", .str "")]

/-- The encoded signature object of `placeholderForm`. -/
def placeholderSig : List (String × Json) :=
  [("careCoordinatorName", .str "Sam"), ("signature", .str ""), ("dateSigned", .str "")]

/-- The encoded object of `badMonthForm`. -/
def badMonthTop : List (String × Json) :=
  [("header", .obj badMonthHdr),
   ("careCoordinationType", .obj [("sih", .bool false), ("hcbw", .bool false)]),
   ("narrative", .obj
     [("recipientAndVisitObservations", .str ""), ("healthEmotionalStatus", .str ""),
      ("reviewOfServices", .str ""), ("progressTowardGoals", .str ""),
      ("additionalNotes", .str ""), ("followUpTasks", .str "")]),
   ("signature", .obj
     [("careCoordinatorName", .str ""), ("signature", .str ""), ("dateSigned", .str "")])]

/-- The encoded object of `placeholderForm`. -/
def placeholderTop : List (String × Json) :=
  [("header", .obj placeholderHdr),
   ("careCoordinationType", .obj [("sih", .bool false), ("hcbw", .bool false)]),
   ("narrative", .obj placeholderNar),
   ("signature", .obj placeholderSig)]

/-- A reachable-runtime environment whose categorizer times out. -/
def timeoutEnv : OrchEnv :=
  { tagsReachable := true
    disableLLM := false
    multimodal := false
    vision := .err { name := "Error" }
    categorizer := .err { name := "TimeoutError" }
    llm := .err { name := "Error" } }

/-! ## Helper lemmas -/

/-- Schema validation accepts the encoding of every well-typed record and
returns it unchanged. -/
theorem validateForm_encodeForm (f : MonthlyCareCoordinationForm) :
    validateForm (encodeForm f) = some f := rfl

/-- An unpopulated field is always scored `low`. -/
theorem fieldLevel_false (c : Rat) (m : ScoreMethod) : fieldLevel c m false = .low := rfl

/-- A string append with a non-empty left part is non-empty. -/
theorem append_ne_empty_left {s t : String} (h : s ≠ "") : s ++ t ≠ "" := by
  intro hc
  apply h
  have hd := congrArg String.data hc
  rw [String.data_append] at hd
  exact String.ext (List.append_eq_nil.mp hd).1

/-- The advisory-notes block is never empty. -/
theorem rulesAdvisoryNotes_ne_empty (b : Bool) : rulesAdvisoryNotes b ≠ "" := by
  cases b <;> decide

/-! ## Claims -/

/-- C1: for every input string (including the empty string), every base OCR
confidence, and every LLM-availability flag, the Rule-Based Extractor
returns a result whose form passes schema validation; being a total Lean
function, it has no failure path. -/
theorem ruleBasedExtractorTotal (text : String) (ocrConfidence : Rat)
    (ollamaAvailable : Bool) :
    validateForm (encodeForm (parseWithRules text ocrConfidence ollamaAvailable).form) =
      some (parseWithRules text ocrConfidence ollamaAvailable).form :=
  validateForm_encodeForm _

/-- C2: for every validated form, base OCR confidence, and extraction
method, the confidence scorer emits exactly one entry per static schema leaf
path — the 17 paths of `FORM_FIELDS` (6 header, 2 checkbox, 6 narrative,
3 signature) — in that fixed order, with no duplicates, extras or
omissions. -/
theorem confidenceEnumeratesStaticFieldPaths (form : MonthlyCareCoordinationForm)
    (c : Rat) (m : ScoreMethod) :
    (generateConfidenceScores form c m).map (·.field) = FORM_FIELDS.map (·.path)
    ∧ (FORM_FIELDS.map (·.path)).Nodup
    ∧ (generateConfidenceScores form c m).length = 17 :=
  ⟨rfl, by decide, rfl⟩

/-- C4: any field whose stored value is the empty string receives confidence
`low`, regardless of method and base confidence; the two checkbox fields are
always scored as populated (their entries carry `fieldLevel … true`,
exempting them from the empty-value floor). -/
theorem emptyFieldConfidenceFloor (form : MonthlyCareCoordinationForm)
    (c : Rat) (m : ScoreMethod) :
    (∀ e ∈ generateConfidenceScores form c m,
        stringFieldValue form e.field = some "" → e.confidence = .low)
    ∧ (∀ e ∈ generateConfidenceScores form c m,
        e.field = "careCoordinationType.sih" ∨ e.field = "careCoordinationType.hcbw" →
        e.confidence = fieldLevel c m true) := by
  constructor
  · intro e he hval
    fin_cases he <;>
      simp_all [stringFieldValue, fieldLevel_false]
  · intro e he hfield
    fin_cases he <;> simp_all

/-- Witness for C4 at a concrete input: on the empty form with base
confidence 95 and method `llm-structured`, some entry is scored `low`, and
some entry carries the populated-field level. -/
theorem emptyFieldConfidenceFloor_witness :
    (∃ e ∈ generateConfidenceScores createEmptyForm 95 ScoreMethod.llmStructured,
        e.confidence = ConfidenceLevel.low)
    ∧ (∃ e ∈ generateConfidenceScores createEmptyForm 95 ScoreMethod.llmStructured,
        e.confidence = fieldLevel 95 ScoreMethod.llmStructured true) :=
  ⟨⟨_, List.mem_cons_self _ _,
      (emptyFieldConfidenceFloor createEmptyForm 95 .llmStructured).1 _
        (List.mem_cons_self _ _) rfl⟩,
   ⟨_, by decide,
      (emptyFieldConfidenceFloor createEmptyForm 95 .llmStructured).2
        { field := "careCoordinationType.sih",
          confidence := fieldLevel 95 .llmStructured true,
          ocrConfidence := 95, source := .llmStructured }
        (by decide) (Or.inl rfl)⟩⟩

/-- C5: for a populated field, the tier computed under `ocr-only` (one-tier
demotion) never exceeds the tier computed under `llm-categorized` (one-tier
promotion) at the same base OCR confidence. -/
theorem ocrOnlyNeverAboveLlmCategorized (c : Rat) :
    (fieldLevel c .ocrOnly true).rank ≤ (fieldLevel c .llmCategorized true).rank := by
  by_cases h₁ : c > 80
  · simp [fieldLevel, h₁, ConfidenceLevel.rank]
  · by_cases h₂ : c > 50 <;>
      simp [fieldLevel, h₁, h₂, ConfidenceLevel.rank]

/-- The advisory-notes block is a prefix of the updated `additionalNotes`. -/
theorem prependAdvisoryNotes_spec (avail : Bool) (ex : String) :
    ∃ rest, prependAdvisoryNotes avail ex = rulesAdvisoryNotes avail ++ rest := by
  unfold prependAdvisoryNotes
  by_cases h : (ex != "") = true
  · exact ⟨"\n\n" ++ ex, by rw [if_pos h, String.append_assoc]⟩
  · exact ⟨"", by rw [if_neg h, String.append_empty]⟩

/-- The updated `additionalNotes` is never empty. -/
theorem prependAdvisoryNotes_ne_empty (avail : Bool) (ex : String) :
    prependAdvisoryNotes avail ex ≠ "" := by
  obtain ⟨rest, hrest⟩ := prependAdvisoryNotes_spec avail ex
  rw [hrest]
  exact append_ne_empty_left (rulesAdvisoryNotes_ne_empty avail)

/-- Looking up `narrative.additionalNotes` in the scorer output yields the
level computed from that field's populatedness. -/
theorem find?_additionalNotes_conf (f : MonthlyCareCoordinationForm) (c : Rat)
    (m : ScoreMethod) :
    ((generateConfidenceScores f c m).find?
        (fun e => e.field == "narrative.additionalNotes")).map (·.confidence) =
      some (fieldLevel c m (f.narrative.additionalNotes != "")) := rfl

/-- C10: every Rule-Based Extractor result has a non-empty
`narrative.additionalNotes`: the advisory notes (the OCR-only note when the
LLM is unavailable, always the review advisory) are prepended before any
extracted content, so the field is never empty and its confidence entry is
computed with the field counted as populated. -/
theorem ruleBasedAdditionalNotesAlwaysPopulated (text : String) (c : Rat) (avail : Bool) :
    (∃ rest, (parseWithRules text c avail).form.narrative.additionalNotes =
        rulesAdvisoryNotes avail ++ rest)
    ∧ (parseWithRules text c avail).form.narrative.additionalNotes ≠ ""
    ∧ ((parseWithRules text c avail).confidence.find?
          (fun e => e.field == "narrative.additionalNotes")).map (·.confidence) =
        some (fieldLevel c .ocrOnly true) := by
  have hform : (parseWithRules text c avail).form.narrative.additionalNotes
      = prependAdvisoryNotes avail
          ((mergeNarrative ((((text.splitOn "\n").map jsTrim).filter
              (fun l => l != "")).foldl applyRuleLine createEmptyForm).narrative
            (extractNarrativeSections text)).additionalNotes) := rfl
  have hne : (parseWithRules text c avail).form.narrative.additionalNotes ≠ "" := by
    rw [hform]; exact prependAdvisoryNotes_ne_empty _ _
  have hconf : (parseWithRules text c avail).confidence
      = generateConfidenceScores (parseWithRules text c avail).form c .ocrOnly := rfl
  refine ⟨?_, hne, ?_⟩
  · rw [hform]; exact prependAdvisoryNotes_spec _ _
  · rw [hconf, find?_additionalNotes_conf, bne_iff_ne.mpr hne]

/-! ### C3: the LLM Text Extractor's JSON fallback chain -/

/-- C3 counterexample: the LLM Text Extractor raises on a response whose
first `\x7b...\x7d` span is valid JSON — the claimed third tier would have
succeeded, so the extractor does not implement the three-tier chain. -/
theorem llmTextExtractorThreeTierCounterexample :
    (parseWithLLMJson llmResponseSample).isOk = false
    ∧ (specThreeTierParse llmResponseSample).isOk = true
    ∧ (categorizeTextJson llmResponseSample).isOk = true := by decide

/-- C3 as amended: the LLM Text Extractor's fallback has two tiers — direct
parse, then extraction of a (strictly `json`-tagged) fenced block — raising
when the direct parse fails and no fenced block parses; whenever it
succeeds, the spec's three-tier chain also succeeds.  The three-tier chain
(direct parse, fenced block with optional tag, first-to-last brace span) is
the Categorizer's (`categorizeText`), where a fenced block that fails to
parse raises without trying the brace span. -/
theorem llmTextExtractorTwoTier (resp : String) :
    ((parseWithLLMJson resp).isOk =
      ((parseJson resp).isSome ||
        (match fencedJsonStrict resp with
         | some inner => (parseJson inner).isSome
         | none => false)))
    ∧ ((parseWithLLMJson resp).isOk = true → (specThreeTierParse resp).isOk = true)
    ∧ ((categorizeTextJson resp).isOk =
      ((parseJson resp).isSome ||
        (match fencedJsonLoose resp with
         | some inner => (parseJson (jsTrim inner)).isSome
         | none =>
             (match braceSpan resp with
              | some span => (parseJson span).isSome
              | none => false)))) := by
  refine ⟨?_, ?_, ?_⟩
  · unfold parseWithLLMJson
    cases hd : parseJson resp with
    | some j => simp [Except.isOk, Except.toBool]
    | none =>
        cases hf : fencedJsonStrict resp with
        | some inner => cases hi : parseJson inner <;> simp [hi, Except.isOk, Except.toBool]
        | none => simp [Except.isOk, Except.toBool]
  · intro h
    unfold parseWithLLMJson at h
    unfold specThreeTierParse
    cases hd : parseJson resp with
    | some j => simp [Except.isOk, Except.toBool]
    | none =>
        rw [hd] at h
        cases hf : fencedJsonStrict resp with
        | some inner =>
            rw [hf] at h
            cases hi : parseJson inner with
            | some j => simp [hf, hi, Except.isOk, Except.toBool]
            | none => simp [hi, Except.isOk, Except.toBool] at h
        | none => simp [hf, Except.isOk, Except.toBool] at h
  · unfold categorizeTextJson
    cases hd : parseJson resp with
    | some j => simp [Except.isOk, Except.toBool]
    | none =>
        cases hf : fencedJsonLoose resp with
        | some inner =>
            cases hi : parseJson (jsTrim inner) <;> simp [hi, Except.isOk, Except.toBool]
        | none =>
            cases hb : braceSpan resp with
            | some span => cases hs : parseJson span <;> simp [hs, Except.isOk, Except.toBool]
            | none => simp [Except.isOk, Except.toBool]

/-- Witness for C3 as amended at a concrete input: on the bare-object
response, the Text Extractor succeeds and so does the three-tier chain. -/
theorem llmTextExtractorTwoTier_witness :
    (specThreeTierParse "\x7b\"a\": 1\x7d").isOk = true :=
  (llmTextExtractorTwoTier "\x7b\"a\": 1\x7d").2.1 (by decide)

/-! ### Lemmas on JS objects and the header-cleaning phase -/

/-- Inserting a key makes it readable. -/
theorem getField_objInsert_self (kvs : List (String × Json)) (k : String) (v : Json) :
    getField (objInsert kvs k v) k = some v := by
  induction kvs with
  | nil => simp [objInsert, getField]
  | cons hd tl ih =>
      by_cases h : hd.1 = k
      · simp [objInsert, getField, h]
      · simp only [objInsert, beq_eq_false_iff_ne.mpr h, Bool.false_eq_true, if_neg]
        simpa [getField, List.find?, beq_eq_false_iff_ne.mpr h] using ih

/-- Inserting a key leaves other keys unchanged. -/
theorem getField_objInsert_ne (kvs : List (String × Json)) (k k' : String) (v : Json)
    (h : k' ≠ k) :
    getField (objInsert kvs k v) k' = getField kvs k' := by
  induction kvs with
  | nil => simp [objInsert, getField, beq_eq_false_iff_ne.mpr (Ne.symm h)]
  | cons hd tl ih =>
      by_cases hh : hd.1 = k
      · subst hh
        simp [objInsert, getField, List.find?, beq_eq_false_iff_ne.mpr (Ne.symm h)]
      · simp only [objInsert, beq_eq_false_iff_ne.mpr hh, Bool.false_eq_true, if_neg]
        by_cases hk' : hd.1 = k'
        · simp [getField, List.find?, hk']
        · simpa [getField, List.find?, beq_eq_false_iff_ne.mpr hk'] using ih

/-- Cleaning one header key leaves the other keys unchanged. -/
theorem cleanHeaderField_preserve (h : List (String × Json)) (key key' : String)
    (hne : key' ≠ key) :
    getField (cleanHeaderField h key).1 key' = getField h key' := by
  unfold cleanHeaderField
  cases hg : getField h key with
  | none => rfl
  | some v =>
      cases v <;> try rfl
      case str s =>
        by_cases hc : containsStringCI s = true
        · simp [hc, getField_objInsert_ne _ _ _ _ hne]
        · simp [hc]

/-- A non-placeholder string value is left entirely alone. -/
theorem cleanHeaderField_unchanged (h : List (String × Json)) (key s : String)
    (hg : getField h key = some (.str s)) (hc : containsStringCI s = false) :
    cleanHeaderField h key = (h, []) := by
  unfold cleanHeaderField
  rw [hg]
  simp [hc]

/-- A placeholder string value is cleared and flagged. -/
theorem cleanHeaderField_clears (h : List (String × Json)) (key s : String)
    (hg : getField h key = some (.str s)) (hc : containsStringCI s = true) :
    cleanHeaderField h key =
      (objInsert h key (.str ""),
       [{ field := "header." ++ key,
          issue := "Placeholder value found: \"" ++ s ++ "\"",
          suggestion := some "Field not properly extracted from source text" }]) := by
  unfold cleanHeaderField
  rw [hg]
  simp [hc]

/-- Every issue of one cleaning step names its own key. -/
theorem cleanHeaderField_fields (h : List (String × Json)) (key : String) :
    ∀ i ∈ (cleanHeaderField h key).2, i.field = "header." ++ key := by
  unfold cleanHeaderField
  cases hg : getField h key with
  | none => simp
  | some v =>
      cases v <;> try simp
      case str s =>
        by_cases hc : containsStringCI s = true <;> simp [hc]

/-- The cleaning fold leaves keys outside the key list unchanged. -/
theorem cleanHeaderFold_preserve (keys : List String) (h : List (String × Json))
    (key' : String) (hni : key' ∉ keys) :
    getField (cleanHeaderFold h keys).1 key' = getField h key' := by
  induction keys generalizing h with
  | nil => rfl
  | cons k ks ih =>
      simp only [cleanHeaderFold]
      rw [ih _ (fun hm => hni (List.mem_cons_of_mem _ hm)),
        cleanHeaderField_preserve _ _ _ (fun he => hni (List.mem_cons.mpr (Or.inl he)))]

/-- Every issue of the cleaning fold names one of its keys. -/
theorem cleanHeaderFold_fields (keys : List String) (h : List (String × Json)) :
    ∀ i ∈ (cleanHeaderFold h keys).2, ∃ k ∈ keys, i.field = "header." ++ k := by
  induction keys generalizing h with
  | nil => simp [cleanHeaderFold]
  | cons k ks ih =>
      intro i hi
      simp only [cleanHeaderFold, List.mem_append] at hi
      rcases hi with hi | hi
      · exact ⟨k, List.mem_cons_self _ _, cleanHeaderField_fields _ _ i hi⟩
      · obtain ⟨k', hk', hf⟩ := ih _ i hi
        exact ⟨k', List.mem_cons_of_mem _ hk', hf⟩

/-- Prefixing with `header.` is injective. -/
theorem headerPrefix_inj {k k' : String} (h : "header." ++ k = "header." ++ k') :
    k = k' := by
  have hd := congrArg String.data h
  rw [String.data_append, String.data_append] at hd
  exact String.ext (List.append_cancel_left hd)

/-- A non-placeholder value of a listed key survives the whole cleaning fold
unchanged and generates no issue for its field. -/
theorem cleanHeaderFold_unchangedKey (keys : List String) (h : List (String × Json))
    (key s : String) (hnd : keys.Nodup) (hk : key ∈ keys)
    (hg : getField h key = some (.str s)) (hc : containsStringCI s = false) :
    getField (cleanHeaderFold h keys).1 key = some (.str s)
    ∧ ((cleanHeaderFold h keys).2.any (fun i => i.field == "header." ++ key)) = false := by
  induction keys generalizing h with
  | nil => cases hk
  | cons k ks ih =>
      rcases List.mem_cons.mp hk with rfl | hkm
      · have hstep := cleanHeaderField_unchanged h key s hg hc
        have hni : key ∉ ks := (List.nodup_cons.mp hnd).1
        constructor
        · simp only [cleanHeaderFold, hstep]
          rw [cleanHeaderFold_preserve _ _ _ hni, hg]
        · simp only [cleanHeaderFold, hstep, List.nil_append, List.any_eq_false]
          intro i hi
          obtain ⟨k', hk', hf⟩ := cleanHeaderFold_fields _ _ i hi
          rw [hf]
          intro habs
          apply hni
          rw [headerPrefix_inj (eq_of_beq habs)] at hk'
          exact hk'
      · have hne : key ≠ k := fun he => (List.nodup_cons.mp hnd).1 (he ▸ hkm)
        have hg' : getField (cleanHeaderField h k).1 key = some (.str s) := by
          rw [cleanHeaderField_preserve _ _ _ hne, hg]
        obtain ⟨ih₁, ih₂⟩ := ih (cleanHeaderField h k).1 (List.nodup_cons.mp hnd).2 hkm hg'
        constructor
        · simpa [cleanHeaderFold] using ih₁
        · simp only [cleanHeaderFold, List.any_append, ih₂, Bool.or_false,
            List.any_eq_false]
          intro i hi
          rw [cleanHeaderField_fields _ _ i hi]
          intro habs
          exact hne (headerPrefix_inj (eq_of_beq habs)).symm

/-- A placeholder value of a listed key is cleared by the cleaning fold and
flagged under its field path. -/
theorem cleanHeaderFold_clearsKey (keys : List String) (h : List (String × Json))
    (key s : String) (hnd : keys.Nodup) (hk : key ∈ keys)
    (hg : getField h key = some (.str s)) (hc : containsStringCI s = true) :
    getField (cleanHeaderFold h keys).1 key = some (.str "")
    ∧ ((cleanHeaderFold h keys).2.any (fun i => i.field == "header." ++ key)) = true := by
  induction keys generalizing h with
  | nil => cases hk
  | cons k ks ih =>
      rcases List.mem_cons.mp hk with rfl | hkm
      · have hstep := cleanHeaderField_clears h key s hg hc
        have hni : key ∉ ks := (List.nodup_cons.mp hnd).1
        constructor
        · simp only [cleanHeaderFold, hstep]
          rw [cleanHeaderFold_preserve _ _ _ hni, getField_objInsert_self]
        · simp [cleanHeaderFold, hstep]
      · have hne : key ≠ k := fun he => (List.nodup_cons.mp hnd).1 (he ▸ hkm)
        have hg' : getField (cleanHeaderField h k).1 key = some (.str s) := by
          rw [cleanHeaderField_preserve _ _ _ hne, hg]
        obtain ⟨ih₁, ih₂⟩ := ih (cleanHeaderField h k).1 (List.nodup_cons.mp hnd).2 hkm hg'
        refine ⟨by simpa [cleanHeaderFold] using ih₁, ?_⟩
        simp only [cleanHeaderFold, List.any_append]
        rw [ih₂, Bool.or_true]

/-- Unfolding `cleanHeaderPhase` on an object with an object-valued
`header`. -/
theorem cleanHeaderPhase_obj (top h : List (String × Json))
    (hh : getField top "header" = some (.obj h)) :
    cleanHeaderPhase (.obj top) =
      (.obj (objInsert top "header" (.obj (cleanHeaderFold h headerCleanKeys).1)),
       (cleanHeaderFold h headerCleanKeys).2) := by
  simp only [cleanHeaderPhase]
  rw [hh]

/-- Everything in a conditionally pushed singleton is that issue. -/
theorem issueWhen_mem (cond : Bool) (r : ValidationIssue) :
    ∀ i ∈ issueWhen cond r, i = r := by
  unfold issueWhen
  split <;> simp

/-- Every date-format issue names its key's field and carries the
`MM/DD/YYYY` suggestion. -/
theorem dateIssueFor_fields (j : Json) (key fld lbl : String) :
    ∀ i ∈ dateIssueFor j key fld lbl,
      i.field = fld ∧ i.suggestion = some "Should be MM/DD/YYYY" := by
  unfold dateIssueFor
  cases optChain2 j "header" key with
  | none => simp
  | some v =>
      intro i hi
      rw [issueWhen_mem _ _ i hi]
      exact ⟨rfl, rfl⟩

/-- Every checkbox-conflict issue names `careCoordinationType`. -/
theorem checkboxIssues_fields (j : Json) :
    ∀ i ∈ checkboxIssues j, i.field = "careCoordinationType" := by
  intro i hi
  rw [issueWhen_mem _ _ i hi]

/-- When the required-name check completes, every issue it pushed names
`header.recipientName`. -/
theorem nameIssue_fields (j : Json) (l : List ValidationIssue)
    (hok : nameIssue j = Except.ok l) :
    ∀ i ∈ l, i.field = "header.recipientName" := by
  intro i hi
  unfold nameIssue at hok
  split at hok
  · injection hok with h
    subst h
    rw [List.mem_singleton.mp hi]
    rfl
  · split at hok
    · split at hok
      · injection hok with h
        subst h
        rw [issueWhen_mem _ _ i hi]
        rfl
      · exact Except.noConfusion hok
    · injection hok with h
      subst h
      rw [List.mem_singleton.mp hi]
      rfl

/-- The throw path is real: on a truthy non-string `recipientName` the
validation phase raises the required-name check's `TypeError` rather than
returning. -/
theorem validateCategorizedData_throws_on_truthy_nonstring_name :
    validateCategorizedData
        (.obj [("header", .obj [("recipientName", .num "5")])])
      = .error { name := "TypeError" } := rfl

/-- Every narrative-quality issue names `narrative`. -/
theorem narrativeQualityIssue_fields (j : Json) :
    ∀ i ∈ narrativeQualityIssue j, i.field = "narrative" := by
  intro i hi
  rw [issueWhen_mem _ _ i hi]

/-- A list whose issues all name `s` has no issue naming a different `t`. -/
theorem any_eq_false_of_fields (l : List ValidationIssue) (s t : String)
    (hall : ∀ i ∈ l, i.field = s) (hne : (s == t) = false) :
    (l.any (fun i => i.field == t)) = false :=
  List.any_eq_false.mpr fun i hi => by rw [hall i hi]; simp [hne]

/-- The date-format check on a string-valued key, characterized. -/
theorem dateIssueFor_eq (j : Json) (key fld lbl d : String)
    (hv : optChain2 j "header" key = some (.str d)) :
    dateIssueFor j key fld lbl =
      (if d != "" && !dateRegexTest d then
        [{ field := fld, issue := lbl ++ d, suggestion := some "Should be MM/DD/YYYY" }]
       else []) := by
  unfold dateIssueFor
  rw [hv]
  unfold issueWhen
  cases hdd : (d == "") <;> cases hr : dateRegexTest d <;>
    simp [jsTruthy, jsToStr, jsToStrAtom, isEmptyStrJson, hdd, hr, bne]

/-- `getField` commutes with mapping over values. -/
theorem getField_mapValues (g : Json → Json) (kvs : List (String × Json)) (k : String) :
    getField (kvs.map (fun kv => (kv.1, g kv.2))) k = (getField kvs k).map g := by
  induction kvs with
  | nil => rfl
  | cons hd tl ih =>
      by_cases h : hd.1 = k
      · simp [getField, List.find?, h]
      · simpa [getField, List.find?, beq_eq_false_iff_ne.mpr h] using ih

/-- The narrative cleanup leaves the other top-level sections unchanged. -/
theorem optChain2_narrativeCleanup (top : List (String × Json)) (k₁ k₂ : String)
    (h₁ : k₁ ≠ "narrative") :
    optChain2 (narrativeCleanup (.obj top)) k₁ k₂ = optChain2 (.obj top) k₁ k₂ := by
  simp only [narrativeCleanup]
  cases hn : getField top "narrative" with
  | none => rfl
  | some v =>
      cases v <;> try rfl
      case obj nar =>
        simp only [optChain2]
        rw [getField_objInsert_ne _ _ _ _ h₁]

/-- Reading a freshly inserted object section. -/
theorem optChain2_objInsert_self (top h : List (String × Json)) (k₁ k₂ : String) :
    optChain2 (.obj (objInsert top k₁ (.obj h))) k₁ k₂ = getField h k₂ := by
  simp only [optChain2]
  rw [getField_objInsert_self]

/-- C6 as amended: on every parsed object whose string-valued `date` and
`dob` are not literal placeholders, whenever the Categorizer's validation
phase completes — it throws a `TypeError` instead if `recipientName` holds a
truthy non-string — it flags `header.date` (resp. `header.dob`) exactly when
the value is non-empty and fails the code's date regex — whose day
alternatives `[0-2][0-9]|3[01]` admit day `00`, unlike the claimed strict
day 01–31 — always with suggestion `Should be MM/DD/YYYY`, and leaves both
values unchanged in the corrected object. -/
theorem dateFormatCheckCharacterization (top hdr : List (String × Json)) (dte dob : String)
    (out : List ValidationIssue × Json)
    (hh : getField top "header" = some (.obj hdr))
    (hgd : getField hdr "date" = some (.str dte))
    (hgb : getField hdr "dob" = some (.str dob))
    (hcd : containsStringCI dte = false)
    (hcb : containsStringCI dob = false)
    (hok : validateCategorizedData (.obj top) = .ok out) :
    (out.1.any (fun i => i.field == "header.date"))
        = (dte != "" && !dateRegexTest dte)
    ∧ (out.1.any (fun i => i.field == "header.dob"))
        = (dob != "" && !dateRegexTest dob)
    ∧ (∀ i ∈ out.1,
        i.field = "header.date" ∨ i.field = "header.dob" →
        i.suggestion = some "Should be MM/DD/YYYY")
    ∧ optChain2 out.2 "header" "date" = some (.str dte)
    ∧ optChain2 out.2 "header" "dob" = some (.str dob) := by
  have hfoldd := cleanHeaderFold_unchangedKey headerCleanKeys hdr "date" dte
    (by decide) (by decide) hgd hcd
  have hfoldb := cleanHeaderFold_unchangedKey headerCleanKeys hdr "dob" dob
    (by decide) (by decide) hgb hcb
  have hfd2 : ((cleanHeaderFold hdr headerCleanKeys).2.any
      fun i => i.field == "header.date") = false := hfoldd.2
  have hfb2 : ((cleanHeaderFold hdr headerCleanKeys).2.any
      fun i => i.field == "header.dob") = false := hfoldb.2
  have hvd : optChain2
      (Json.obj (objInsert top "header" (Json.obj (cleanHeaderFold hdr headerCleanKeys).1)))
      "header" "date" = some (.str dte) := by
    rw [optChain2_objInsert_self]; exact hfoldd.1
  have hvb : optChain2
      (Json.obj (objInsert top "header" (Json.obj (cleanHeaderFold hdr headerCleanKeys).1)))
      "header" "dob" = some (.str dob) := by
    rw [optChain2_objInsert_self]; exact hfoldb.1
  cases hnm : nameIssue
      (.obj (objInsert top "header" (.obj (cleanHeaderFold hdr headerCleanKeys).1))) with
  | error e =>
      have hve : validateCategorizedData (.obj top) = .error e := by
        simp only [validateCategorizedData, cleanHeaderPhase_obj top hdr hh, hnm]
      rw [hve] at hok
      exact Except.noConfusion hok
  | ok names =>
      have hval : validateCategorizedData (.obj top) =
          .ok ((cleanHeaderFold hdr headerCleanKeys).2
            ++ dateIssueFor
                (.obj (objInsert top "header" (.obj (cleanHeaderFold hdr headerCleanKeys).1)))
                "date" "header.date" "Invalid date format: "
            ++ dateIssueFor
                (.obj (objInsert top "header" (.obj (cleanHeaderFold hdr headerCleanKeys).1)))
                "dob" "header.dob" "Invalid DOB format: "
            ++ checkboxIssues
                (.obj (objInsert top "header" (.obj (cleanHeaderFold hdr headerCleanKeys).1)))
            ++ names
            ++ narrativeQualityIssue
                (.obj (objInsert top "header" (.obj (cleanHeaderFold hdr headerCleanKeys).1))),
           narrativeCleanup
             (.obj (objInsert top "header" (.obj (cleanHeaderFold hdr headerCleanKeys).1)))) := by
        simp only [validateCategorizedData, cleanHeaderPhase_obj top hdr hh, hnm]
      rw [hval] at hok
      injection hok with hout
      subst hout
      rw [dateIssueFor_eq _ _ _ _ _ hvd, dateIssueFor_eq _ _ _ _ _ hvb]
      have hcbf := any_eq_false_of_fields _ _ "header.date"
        (checkboxIssues_fields
          (.obj (objInsert top "header" (.obj (cleanHeaderFold hdr headerCleanKeys).1))))
        (by decide)
      have hcbf' := any_eq_false_of_fields _ _ "header.dob"
        (checkboxIssues_fields
          (.obj (objInsert top "header" (.obj (cleanHeaderFold hdr headerCleanKeys).1))))
        (by decide)
      have hnmf := any_eq_false_of_fields names _ "header.date"
        (nameIssue_fields _ names hnm) (by decide)
      have hnmf' := any_eq_false_of_fields names _ "header.dob"
        (nameIssue_fields _ names hnm) (by decide)
      have hnrf := any_eq_false_of_fields _ _ "header.date"
        (narrativeQualityIssue_fields
          (.obj (objInsert top "header" (.obj (cleanHeaderFold hdr headerCleanKeys).1))))
        (by decide)
      have hnrf' := any_eq_false_of_fields _ _ "header.dob"
        (narrativeQualityIssue_fields
          (.obj (objInsert top "header" (.obj (cleanHeaderFold hdr headerCleanKeys).1))))
        (by decide)
      refine ⟨?_, ?_, ?_, ?_, ?_⟩
      · by_cases h₁ : (dte != "" && !dateRegexTest dte) = true <;>
          by_cases h₂ : (dob != "" && !dateRegexTest dob) = true <;>
            simp [List.any_append, hfd2, h₁, h₂, hcbf, hnmf, hnrf,
              show (("header.dob" : String) == "header.date") = false from by decide]
      · by_cases h₁ : (dte != "" && !dateRegexTest dte) = true <;>
          by_cases h₂ : (dob != "" && !dateRegexTest dob) = true <;>
            simp [List.any_append, hfb2, h₁, h₂, hcbf', hnmf', hnrf',
              show (("header.date" : String) == "header.dob") = false from by decide]
      · intro i hi hfield
        simp only [List.mem_append] at hi
        rcases hi with ((((hi | hi) | hi) | hi) | hi) | hi
        · rcases hfield with hf | hf
          · have := List.any_eq_false.mp hfd2 i hi
            rw [hf] at this
            simp at this
          · have := List.any_eq_false.mp hfb2 i hi
            rw [hf] at this
            simp at this
        · revert hi
          split
          · intro hi
            rw [List.mem_singleton.mp hi]
          · intro hi
            cases hi
        · revert hi
          split
          · intro hi
            rw [List.mem_singleton.mp hi]
          · intro hi
            cases hi
        · have := checkboxIssues_fields _ i hi
          rcases hfield with hf | hf <;> rw [this] at hf <;> exact absurd hf (by decide)
        · have := nameIssue_fields _ names hnm i hi
          rcases hfield with hf | hf <;> rw [this] at hf <;> exact absurd hf (by decide)
        · have := narrativeQualityIssue_fields _ i hi
          rcases hfield with hf | hf <;> rw [this] at hf <;> exact absurd hf (by decide)
      · rw [optChain2_narrativeCleanup _ _ _ (by decide), optChain2_objInsert_self]
        exact hfoldd.1
      · rw [optChain2_narrativeCleanup _ _ _ (by decide), optChain2_objInsert_self]
        exact hfoldb.1

/-- C6 counterexample: `12/00/2024` fails the claimed strict day-01–31
pattern, yet the validation phase completes and records no `header.date`
issue, because the code's regex accepts day `00`. -/
theorem dateFormatStrictPatternCounterexample :
    specDatePattern "12/00/2024" = false
    ∧ dateRegexTest "12/00/2024" = true
    ∧ (validateCategorizedData (encodeForm dateDayZeroForm)).isOk = true
    ∧ ((exceptOutput (validateCategorizedData (encodeForm dateDayZeroForm))).1.all
        (fun i => !(i.field == "header.date"))) = true := by decide

/-- Witness for C6 as amended at a concrete input: the phase completes on
the encoded month-13 form (spec scenario 3) and flags the date. -/
theorem dateFormatCheckCharacterization_witness :
    validateCategorizedData (encodeForm badMonthForm)
      = Except.ok (exceptOutput (validateCategorizedData (encodeForm badMonthForm)))
    ∧ ((exceptOutput (validateCategorizedData (encodeForm badMonthForm))).1.any
        (fun i => i.field == "header.date"))
      = ("13/45/2024" != "" && !dateRegexTest "13/45/2024") := by
  refine ⟨rfl, ?_⟩
  exact (dateFormatCheckCharacterization badMonthTop badMonthHdr "13/45/2024" ""
    (exceptOutput (validateCategorizedData (encodeForm badMonthForm)))
    rfl rfl rfl (by decide) (by decide) rfl).1

/-! ### C7: scope of the literal-placeholder cleaning -/

/-- No `header.`-prefixed field equals a `narrative.`-prefixed one (they
differ at the first character). -/
theorem headerPrefix_ne_narrDot (k' k : String) :
    ("header." ++ k' : String) ≠ "narrative." ++ k := by
  intro h
  have hd : ('h' : Char) :: ("eader.".data ++ k'.data)
      = 'n' :: ("arrative.".data ++ k.data) := congrArg String.data h
  injection hd with h₁ _
  exact absurd h₁ (by decide)

/-- `careCoordinationType` is not a `narrative.`-prefixed field. -/
theorem cct_ne_narrDot (k : String) :
    ("careCoordinationType" : String) ≠ "narrative." ++ k := by
  intro h
  have hd : ('c' : Char) :: "areCoordinationType".data
      = 'n' :: ("arrative.".data ++ k.data) := congrArg String.data h
  injection hd with h₁ _
  exact absurd h₁ (by decide)

/-- `narrative` itself is not a `narrative.`-prefixed field (it is
shorter). -/
theorem narr_ne_narrDot (k : String) : ("narrative" : String) ≠ "narrative." ++ k := by
  intro h
  have hd := congrArg String.data h
  rw [String.data_append] at hd
  have hl := congrArg List.length hd
  rw [List.length_append] at hl
  simp at hl
  omega

/-- Unfolding `narrativeCleanup` on an object with an object-valued
`narrative`. -/
theorem narrativeCleanup_obj (top nar : List (String × Json))
    (hn : getField top "narrative" = some (.obj nar)) :
    narrativeCleanup (.obj top) =
      .obj (objInsert top "narrative"
        (.obj (nar.map (fun kv => (kv.1, cleanNarrativeValue kv.2))))) := by
  simp only [narrativeCleanup]
  rw [hn]

/-- C7 as amended: on a parsed object with object-valued `header`,
`narrative` and `signature` sections, whenever the validation phase
completes — it throws a `TypeError` instead if `recipientName` holds a
truthy non-string — a header string field containing "string"
(case-insensitively) is cleared to empty with an issue recorded under its
field path; a narrative string field containing "string" is cleared without
any issue under its field path; signature fields are neither checked nor
changed. -/
theorem placeholderCleaningScope (top hdr nar sig : List (String × Json))
    (out : List ValidationIssue × Json)
    (hh : getField top "header" = some (.obj hdr))
    (hn : getField top "narrative" = some (.obj nar))
    (hs : getField top "signature" = some (.obj sig))
    (hok : validateCategorizedData (.obj top) = .ok out) :
    (∀ k s, k ∈ headerCleanKeys → getField hdr k = some (.str s) →
        containsStringCI s = true →
        optChain2 out.2 "header" k = some (.str "")
        ∧ (out.1.any (fun i => i.field == "header." ++ k)) = true)
    ∧ (∀ k s, getField nar k = some (.str s) → containsStringCI s = true →
        optChain2 out.2 "narrative" k = some (.str "")
        ∧ (out.1.any (fun i => i.field == "narrative." ++ k)) = false)
    ∧ (∀ k s, getField sig k = some (.str s) →
        optChain2 out.2 "signature" k = some (.str s)) := by
  cases hnm : nameIssue
      (.obj (objInsert top "header" (.obj (cleanHeaderFold hdr headerCleanKeys).1))) with
  | error e =>
      have hve : validateCategorizedData (.obj top) = .error e := by
        simp only [validateCategorizedData, cleanHeaderPhase_obj top hdr hh, hnm]
      rw [hve] at hok
      exact Except.noConfusion hok
  | ok names =>
      have hval : validateCategorizedData (.obj top) =
          .ok ((cleanHeaderFold hdr headerCleanKeys).2
            ++ dateIssueFor
                (.obj (objInsert top "header" (.obj (cleanHeaderFold hdr headerCleanKeys).1)))
                "date" "header.date" "Invalid date format: "
            ++ dateIssueFor
                (.obj (objInsert top "header" (.obj (cleanHeaderFold hdr headerCleanKeys).1)))
                "dob" "header.dob" "Invalid DOB format: "
            ++ checkboxIssues
                (.obj (objInsert top "header" (.obj (cleanHeaderFold hdr headerCleanKeys).1)))
            ++ names
            ++ narrativeQualityIssue
                (.obj (objInsert top "header" (.obj (cleanHeaderFold hdr headerCleanKeys).1))),
           narrativeCleanup
             (.obj (objInsert top "header" (.obj (cleanHeaderFold hdr headerCleanKeys).1)))) := by
        simp only [validateCategorizedData, cleanHeaderPhase_obj top hdr hh, hnm]
      rw [hval] at hok
      injection hok with hout
      subst hout
      have hn' : getField (objInsert top "header"
          (.obj (cleanHeaderFold hdr headerCleanKeys).1)) "narrative" = some (.obj nar) := by
        rw [getField_objInsert_ne _ _ _ _ (by decide)]
        exact hn
      have hcleanup := narrativeCleanup_obj
        (objInsert top "header" (.obj (cleanHeaderFold hdr headerCleanKeys).1)) nar hn'
      refine ⟨?_, ?_, ?_⟩
      · intro k s hk hg hc
        have hclears := cleanHeaderFold_clearsKey headerCleanKeys hdr k s
          (by decide) hk hg hc
        constructor
        · simp only [hcleanup, optChain2]
          rw [getField_objInsert_ne _ _ _ _ (by decide), getField_objInsert_self]
          exact hclears.1
        · simp only [List.any_append]
          rw [hclears.2]
          simp
      · intro k s hg hc
        constructor
        · simp only [hcleanup]
          rw [optChain2_objInsert_self, getField_mapValues, hg]
          simp [cleanNarrativeValue, hc]
        · simp only [List.any_append, Bool.or_eq_false_iff]
          refine ⟨⟨⟨⟨⟨?_, ?_⟩, ?_⟩, ?_⟩, ?_⟩, ?_⟩
          · exact List.any_eq_false.mpr fun i hi => by
              obtain ⟨k', _, hf⟩ := cleanHeaderFold_fields _ _ i hi
              rw [hf]
              intro habs
              exact headerPrefix_ne_narrDot k' k (eq_of_beq habs)
          · exact List.any_eq_false.mpr fun i hi => by
              rw [(dateIssueFor_fields _ _ _ _ i hi).1]
              intro habs
              exact headerPrefix_ne_narrDot "date" k (eq_of_beq habs)
          · exact List.any_eq_false.mpr fun i hi => by
              rw [(dateIssueFor_fields _ _ _ _ i hi).1]
              intro habs
              exact headerPrefix_ne_narrDot "dob" k (eq_of_beq habs)
          · exact List.any_eq_false.mpr fun i hi => by
              rw [checkboxIssues_fields _ i hi]
              intro habs
              exact cct_ne_narrDot k (eq_of_beq habs)
          · exact List.any_eq_false.mpr fun i hi => by
              rw [nameIssue_fields _ names hnm i hi]
              intro habs
              exact headerPrefix_ne_narrDot "recipientName" k (eq_of_beq habs)
          · exact List.any_eq_false.mpr fun i hi => by
              rw [narrativeQualityIssue_fields _ i hi]
              intro habs
              exact narr_ne_narrDot k (eq_of_beq habs)
      · intro k s hg
        simp only [hcleanup, optChain2]
        rw [getField_objInsert_ne _ _ _ _ (by decide),
          getField_objInsert_ne _ _ _ _ (by decide)]
        rw [hs]
        exact hg

/-- C7 counterexample: a signature field holding the literal placeholder
`string` is neither cleared nor flagged by the validation phase, which
completes normally on this input. -/
theorem placeholderCleaningCounterexample :
    containsStringCI "string" = true
    ∧ (validateCategorizedData (encodeForm signaturePlaceholderForm)).isOk = true
    ∧ optChain2 (exceptOutput (validateCategorizedData
          (encodeForm signaturePlaceholderForm))).2
        "signature" "careCoordinatorName" = some (.str "string")
    ∧ ((exceptOutput (validateCategorizedData (encodeForm signaturePlaceholderForm))).1.all
        (fun i => !(i.field == "signature.careCoordinatorName"))) = true :=
  ⟨by decide, rfl, rfl, by decide⟩

/-- Witness for C7 as amended at a concrete input: the phase completes on
the encoded form; a placeholder in `header.time` is cleared and flagged, one
in `narrative.reviewOfServices` is cleared without an issue, and a clean
signature value survives. -/
theorem placeholderCleaningScope_witness :
    validateCategorizedData (encodeForm placeholderForm)
      = Except.ok (exceptOutput (validateCategorizedData (encodeForm placeholderForm)))
    ∧ (optChain2 (exceptOutput (validateCategorizedData (encodeForm placeholderForm))).2
          "header" "time" = some (.str "")
      ∧ ((exceptOutput (validateCategorizedData (encodeForm placeholderForm))).1.any
          (fun i => i.field == "header." ++ "time")) = true)
    ∧ (optChain2 (exceptOutput (validateCategorizedData (encodeForm placeholderForm))).2
          "narrative" "reviewOfServices" = some (.str "")
      ∧ ((exceptOutput (validateCategorizedData (encodeForm placeholderForm))).1.any
          (fun i => i.field == "narrative." ++ "reviewOfServices")) = false)
    ∧ optChain2 (exceptOutput (validateCategorizedData (encodeForm placeholderForm))).2
        "signature" "careCoordinatorName" = some (.str "Sam") := by
  refine ⟨rfl, ?_, ?_, ?_⟩
  · exact (placeholderCleaningScope placeholderTop placeholderHdr placeholderNar placeholderSig
      (exceptOutput (validateCategorizedData (encodeForm placeholderForm)))
      rfl rfl rfl rfl).1 "time" "test string value" (by decide) rfl (by decide)
  · exact (placeholderCleaningScope placeholderTop placeholderHdr placeholderNar placeholderSig
      (exceptOutput (validateCategorizedData (encodeForm placeholderForm)))
      rfl rfl rfl rfl).2.1 "reviewOfServices" "another string here" rfl (by decide)
  · exact (placeholderCleaningScope placeholderTop placeholderHdr placeholderNar placeholderSig
      (exceptOutput (validateCategorizedData (encodeForm placeholderForm)))
      rfl rfl rfl rfl).2.2 "careCoordinatorName" "Sam" rfl

/-! ### C8 and C9: orchestrator ordering and the session latch -/

/-- C8: with the LLM runtime reachable, no image, and OCR confidence 60, the
orchestrator attempts the Categorizer first (before the plain Text
Extractor); a timeout-class Categorizer error latches the session-unavailable
flag, and with the flag set every later request attempts only the rule-based
strategy while the health probe answers false without touching the
network. -/
theorem categorizerTimeoutLatchesSession (env : OrchEnv) (text : String)
    (hAvail : checkOllamaHealth false env = (true, true))
    (hTO : env.categorizer = .err { name := "TimeoutError" }) :
    (parseFormFromText env false text 60 none).attempts.head?
        = some Strategy.categorizer
    ∧ (parseFormFromText env false text 60 none).llmFailedAfter = true
    ∧ (∀ env₂ text₂ conf₂ img₂,
        (parseFormFromText env₂ true text₂ conf₂ img₂).attempts = [Strategy.ruleBased]
        ∧ checkOllamaHealth true env₂ = (false, false)) := by
  have h50 : ¬((60 : Rat) < 50) := by norm_num
  have h80 : (60 : Rat) < 80 := by norm_num
  refine ⟨?_, ?_, ?_⟩
  · rcases hl : env.llm with ⟨f₃, n₃⟩ | e₃ <;>
      simp [parseFormFromText, hAvail, hTO, hl, imgTruthy, h50, h80]
  · rcases hl : env.llm with ⟨f₃, n₃⟩ | e₃ <;>
      simp [parseFormFromText, hAvail, hTO, hl, imgTruthy, h50, h80]
  · intro env₂ text₂ conf₂ img₂
    constructor
    · simp [parseFormFromText, checkOllamaHealth]
    · simp [checkOllamaHealth]

/-- Witness for C8 at a concrete environment whose categorizer times out. -/
theorem categorizerTimeoutLatchesSession_witness :
    (parseFormFromText timeoutEnv false "note" 60 none).attempts.head?
        = some Strategy.categorizer
    ∧ (parseFormFromText timeoutEnv false "note" 60 none).llmFailedAfter = true :=
  ⟨(categorizerTimeoutLatchesSession timeoutEnv "note" rfl rfl).1,
   (categorizerTimeoutLatchesSession timeoutEnv "note" rfl rfl).2.1⟩

/-- C9: the Vision Extractor is attempted exactly when the health probe
answers true, a (truthy) image path is supplied, the active model is
multimodal, and the OCR confidence is below 50; in particular it is never
attempted without an image path. -/
theorem visionRequiresImageIff (env : OrchEnv) (st : Bool) (text : String)
    (conf : Rat) (img : Option String) :
    (Strategy.vision ∈ (parseFormFromText env st text conf img).attempts)
      ↔ ((checkOllamaHealth st env).1 = true ∧ imgTruthy img = true
          ∧ env.multimodal = true ∧ conf < 50) := by
  rcases hv : env.vision with ⟨f₁, n₁⟩ | e₁ <;>
    rcases hc : env.categorizer with ⟨f₂, n₂⟩ | e₂ <;>
      rcases hl : env.llm with ⟨f₃, n₃⟩ | e₃ <;>
        simp only [parseFormFromText, hv, hc, hl] <;>
          split_ifs <;>
            simp_all [decide_eq_true_eq]

end ARA
